import Mathlib

/-!
# Verification of the pokemon-quiz session / scoring / question-generation core

Shallow embedding of the server core of the `pokemon-quiz` repository:

* `api/_lib/scoringService.ts` — the scoring function;
* `api/_lib/types.ts`          — the data model and the `toClientQuestion` projection;
* `api/_lib/sessionService.ts` — session lifecycle operations (Redis-backed variant);
* `api/_lib/nameCleaningService.ts` — display-name cleaning;
* the current PokeAPI service revision — the deterministic tail of the
  type-aware question generation.

JavaScript objects used as string-keyed records (`answeredQuestions`) are embedded
as association lists with JS assignment semantics (replace-in-place or append).
Sources of nondeterminism (UUIDs, `Math.random` draws, fetched Pokémon data, the
Redis store contents) are passed as explicit parameters.  `throw` is embedded as
`Except.error` carrying the thrown message; the store persists the updated session
only on a non-throwing run, so an erroring operation leaves the stored state
unchanged by construction.
-/

namespace PokemonQuiz

/-! ## JS record embedding: string-keyed objects as association lists -/

/-- Read of `obj[k]` on a JS object embedded as an association list. -/
def recLookup (m : List (String × β)) (k : String) : Option β :=
  match m with
  | [] => none
  | (k', v) :: rest => if k' == k then some v else recLookup rest k

/-- Write `obj[k] = v` on a JS object: overwrite the existing property in place,
or append a new property at the end (JS property insertion order). -/
def recInsert (m : List (String × β)) (k : String) (v : β) : List (String × β) :=
  match m with
  | [] => [(k, v)]
  | (k', v') :: rest =>
    if k' == k then (k', v) :: rest else (k', v') :: recInsert rest k v

/-- Mutate the first element of a list satisfying `pred` (JS `Array.find`
followed by in-place mutation of the found object). -/
def updateFirst (pred : α → Bool) (f : α → α) : List α → List α
  | [] => []
  | x :: xs => if pred x then f x :: xs else x :: updateFirst pred f xs

/-- JS `Array.prototype.indexOf`: first index of `x`, or `-1` when absent. -/
def jsIndexOf (l : List String) (x : String) : Int :=
  match l.findIdx? (· == x) with
  | some i => (i : Int)
  | none => -1

/-! ## Data model (`api/_lib/types.ts`) -/

/-- Structure `GameSettings` from `types.ts`. -/
structure GameSettings where
  questionCount : Nat
  timePerQuestion : Int
  hardMode : Bool
deriving Repr, DecidableEq, Inhabited

/-- Structure `Question` from `types.ts`: `correctIndex`, `correctName` and `pokemonId`
are server-only. -/
structure Question where
  questionId : String
  imageUrl : String
  options : List String
  correctIndex : Int
  correctName : String
  pokemonId : Nat
deriving Repr, DecidableEq, Inhabited

/-- Structure `ClientQuestion` from `types.ts`: the subset of `Question` sent to clients. -/
structure ClientQuestion where
  questionId : String
  imageUrl : String
  options : List String
deriving Repr, DecidableEq, Inhabited

/-- Structure `PlayerInfo` from `types.ts`. -/
structure PlayerInfo where
  playerId : String
  name : String
  score : Int
  connected : Bool
  isHost : Bool
deriving Repr, DecidableEq, Inhabited

/-- Structure `PlayerAnswer` from `types.ts`. -/
structure PlayerAnswer where
  selectedIndex : Int
  correct : Bool
  pointsEarned : Int
  timeRemaining : Int
deriving Repr, DecidableEq, Inhabited

/-- Session status: `'waiting' | 'active' | 'finished'`. -/
inductive SessionStatus where
  | waiting
  | active
  | finished
deriving Repr, DecidableEq, Inhabited

/-- Type of `answeredQuestions`: `Record<string, Record<string, PlayerAnswer>>`. -/
abbrev AnsweredQuestions := List (String × List (String × PlayerAnswer))

/-- Structure `GameSession` from `types.ts`. -/
structure GameSession where
  sessionId : String
  questions : List Question
  currentQuestionIndex : Nat
  players : List PlayerInfo
  status : SessionStatus
  roomCode : Option String
  isMultiplayer : Bool
  settings : GameSettings
  answeredQuestions : AnsweredQuestions
  createdAt : Nat
deriving Repr, DecidableEq, Inhabited

/-- Read `answeredQuestions[questionId]?.[playerId]`. -/
def lookupAnswer (aq : AnsweredQuestions) (questionId playerId : String) :
    Option PlayerAnswer :=
  match recLookup aq questionId with
  | some inner => recLookup inner playerId
  | none => none

/-- Function `toClientQuestion` from `types.ts`: strip the server-only fields. -/
def toClientQuestion (q : Question) : ClientQuestion :=
  { questionId := q.questionId
    imageUrl := q.imageUrl
    options := q.options }

/-! ## Scoring (`api/_lib/scoringService.ts`) -/

/-- Points awarded for any correct answer, regardless of speed. -/
def BASE_POINTS : Int := 200

/-- Maximum additional points for answering instantly. -/
def MAX_BONUS_POINTS : Int := 200

/-- Points awarded for an incorrect answer. -/
def INCORRECT_POINTS : Int := 0

/-- Function `calculateScore` from `scoringService.ts`, idealized to exact
integer arithmetic: `Math.floor` of the real division becomes `Int.fdiv`.
This idealization is what the session operations below use — their theorems
are invariant under the scoring function's internal arithmetic.  The source
actually evaluates `MAX_BONUS_POINTS * (t / T)` in IEEE-754 binary64 (JS
numbers), which `calculateScoreFloat` models faithfully; the two differ at
inputs such as `t = 23, T = 40` (float 114 vs exact 115) — see C3. -/
def calculateScore (correct : Bool) (timeRemainingSeconds totalTimeSeconds : Int) :
    Int :=
  if !correct then
    INCORRECT_POINTS
  else
    BASE_POINTS + Int.fdiv (MAX_BONUS_POINTS * timeRemainingSeconds) totalTimeSeconds

/-! ### IEEE-754 binary64 model of the source's float scoring

JS numbers are IEEE-754 binary64: every arithmetic operation rounds its exact
rational result to 53 significand bits, to nearest, ties to even.  The
definitions below model one such rounding for positive values in the normal
range `(2⁻⁵⁴, 2¹⁰)`, which covers every intermediate value of
`Math.floor(MAX_BONUS_POINTS * (timeRemaining / totalTime))` for validated
inputs (`t/T ∈ (0, 1]`, `200 * fl(t/T) ∈ (0, 200]`). -/

/-- Round a rational to the nearest integer, ties to even. -/
def rnHalfEven (q : ℚ) : Int :=
  let f := ⌊q⌋
  let r := q - f
  if r < 1/2 then f
  else if 1/2 < r then f + 1
  else if f % 2 = 0 then f else f + 1

/-- Largest `e' ≤ e` with `2 ^ e' ≤ x`, by bounded descent (enough fuel for
the normal range used here). -/
def floatExpAux (x : ℚ) : Nat → Int → Int
  | 0, e => e
  | fuel + 1, e => if x < 2 ^ e then floatExpAux x fuel (e - 1) else e

/-- Binade exponent `⌊log₂ x⌋` of `x ∈ (2⁻⁵⁴, 2¹⁰)`. -/
def floatExp (x : ℚ) : Int := floatExpAux x 64 10

/-- Round a nonnegative rational in the binary64 normal range to the nearest
binary64 value (53-bit significand, round to nearest, ties to even). -/
def floatRound (x : ℚ) : ℚ :=
  if x = 0 then 0
  else
    let e := floatExp x
    ((rnHalfEven (x * 2 ^ (52 - e)) : ℚ)) * 2 ^ (e - 52)

/-- Function `calculateScore` from `scoringService.ts` with the source's
actual float semantics: `t / T` is one correctly-rounded binary64 division,
`MAX_BONUS_POINTS * (...)` one correctly-rounded multiplication, then
`Math.floor` (exact) and the integer addition `BASE_POINTS + bonus`
(exact — both summands are small integers). -/
def calculateScoreFloat (correct : Bool) (t T : ℚ) : Int :=
  if !correct then 0
  else 200 + ⌊floatRound (200 * floatRound (t / T))⌋

/-! ## Session lifecycle (`api/_lib/sessionService.ts`, Redis-backed variant)

Each operation is embedded as a pure function from the looked-up session (and
the request parameters) to `Except String (result × GameSession)`.  The Redis
store persists the returned session on success; a thrown error aborts before
`saveSessionToRedis`, leaving the stored state unchanged. -/

/-- Maximum players allowed in a multiplayer room. -/
def MAX_PLAYERS : Nat := 20

/-- Characters used for room codes (excludes 0/O, 1/I/L to avoid confusion). -/
def ROOM_CODE_CHARS : String := "ABCDEFGHJKLMNPQRSTUVWXYZ23456789"

/-- Function `createPlayer` from `sessionService.ts`; the random UUID is a parameter. -/
def createPlayer (playerId name : String) (isHost : Bool) : PlayerInfo :=
  { playerId := playerId
    name := name
    score := 0
    connected := true
    isHost := isHost }

/-- The session built by `createSinglePlayerSession`, given the generated
questions and the fresh ids drawn inside the call. -/
def createSinglePlayerSession (sessionId playerId : String) (playerName : String)
    (settings : GameSettings) (questions : List Question) (now : Nat) :
    GameSession :=
  { sessionId := sessionId
    questions := questions
    currentQuestionIndex := 0
    players := [createPlayer playerId playerName true]
    status := .active
    roomCode := none
    isMultiplayer := false
    settings := settings
    answeredQuestions := []
    createdAt := now }

/-- The session built by `createMultiplayerSession`, given the generated
questions, fresh ids, and the allocated room code. -/
def createMultiplayerSession (sessionId playerId : String) (playerName : String)
    (settings : GameSettings) (questions : List Question) (roomCode : String)
    (now : Nat) : GameSession :=
  { sessionId := sessionId
    questions := questions
    currentQuestionIndex := 0
    players := [createPlayer playerId playerName true]
    status := .waiting
    roomCode := some roomCode
    isMultiplayer := true
    settings := settings
    answeredQuestions := []
    createdAt := now }

/-- Structure `MultiplayerJoinResponse` from `types.ts`. -/
structure MultiplayerJoinResponse where
  sessionId : String
  playerId : String
  players : List PlayerInfo
  settings : GameSettings
deriving Repr, DecidableEq, Inhabited

/-- Function `joinMultiplayerSession` from `sessionService.ts` (Redis variant).
JS `toUpperCase()` is modelled by `String.toUpper` (ASCII case mapping — room
codes draw from an ASCII alphabet).  The
store is passed in as the room-code index (`room:{code}` keys) and the session
map (`session:{id}` keys); the new player's UUID is the `newPlayerId`
parameter. -/
def joinMultiplayerSession (roomIndex : String → Option String)
    (store : String → Option GameSession) (roomCode playerName newPlayerId : String) :
    Except String (MultiplayerJoinResponse × GameSession) :=
  let upperCode := roomCode.toUpper
  match roomIndex upperCode with
  | none => Except.error "Room not found"
  | some sessionId =>
    match store sessionId with
    | none => Except.error "Room not found"
    | some session =>
      if session.status ≠ .waiting then Except.error "Room not found"
      else if MAX_PLAYERS ≤ session.players.length then
        Except.error "Room is full (max 20 players)"
      else if session.players.any (fun p => p.name.toLower == playerName.toLower) then
        Except.error "Name already taken"
      else
        let player := createPlayer newPlayerId playerName false
        let session' := { session with players := session.players ++ [player] }
        let response : MultiplayerJoinResponse :=
          { sessionId := session'.sessionId
            playerId := player.playerId
            players := session'.players
            settings := session'.settings }
        Except.ok (response, session')

/-- Function `startGame` from `sessionService.ts`, acting on the looked-up session. -/
def startGame (session : GameSession) (playerId : String) :
    Except String ((ClientQuestion × Nat × Nat) × GameSession) :=
  match session.players.find? (fun p => p.playerId == playerId) with
  | none => Except.error "Only the host can start the game"
  | some player =>
    if !player.isHost then Except.error "Only the host can start the game"
    else if (session.players.filter (fun p => p.connected)).length < 2 then
      Except.error "Need at least 2 players to start"
    else if session.status ≠ .waiting then Except.error "Game has already started"
    else
      let session' := { session with status := .active, currentQuestionIndex := 0 }
      match session'.questions[0]? with
      | none => Except.error "TypeError: cannot read property of undefined"
      | some firstQuestion =>
        Except.ok ((toClientQuestion firstQuestion, 0, session'.questions.length), session')

/-- Structure `AnswerResult` from `types.ts`. -/
structure AnswerResult where
  correct : Bool
  correctAnswer : String
  pointsEarned : Int
  totalScore : Int
deriving Repr, DecidableEq, Inhabited

/-- Clamp `timeRemaining` to the valid range (anti-cheat), as written inline in
`submitAnswer` and `submitMultiplayerAnswer`. -/
def clampTime (timeRemainingSeconds timePerQuestion : Int) : Int :=
  max 0 (min timeRemainingSeconds timePerQuestion)

/-- The state update shared by the recording tail of `submitAnswer` and
`submitMultiplayerAnswer`: record the `PlayerAnswer` under
`answeredQuestions[questionId][playerId]` (creating the inner record if
absent) and add `pointsEarned` to the found player's running score. -/
def recordAnswer (session : GameSession) (playerId questionId : String)
    (playerAnswer : PlayerAnswer) (pointsEarned : Int) : GameSession :=
  let inner := (recLookup session.answeredQuestions questionId).getD []
  { session with
    answeredQuestions :=
      recInsert session.answeredQuestions questionId
        (recInsert inner playerId playerAnswer)
    players :=
      updateFirst (fun p => p.playerId == playerId)
        (fun p => { p with score := p.score + pointsEarned })
        session.players }

/-- The tail of `submitAnswer` after the multiplayer anti-cheat guard: find the
player, reject duplicates, clamp, score, record, and build the result. -/
def submitAnswerTail (session : GameSession) (question : Question)
    (playerId questionId : String) (selectedIndex timeRemainingSeconds : Int) :
    Except String (AnswerResult × GameSession) :=
  match session.players.find? (fun p => p.playerId == playerId) with
  | none => Except.error "Player not found"
  | some player =>
    if (lookupAnswer session.answeredQuestions questionId playerId).isSome then
      Except.error "Already answered this question"
    else
      let clampedTime := clampTime timeRemainingSeconds session.settings.timePerQuestion
      let correct := selectedIndex == question.correctIndex
      let pointsEarned := calculateScore correct clampedTime session.settings.timePerQuestion
      let playerAnswer : PlayerAnswer :=
        { selectedIndex := selectedIndex
          correct := correct
          pointsEarned := pointsEarned
          timeRemaining := clampedTime }
      let session' := recordAnswer session playerId questionId playerAnswer pointsEarned
      Except.ok ({ correct := correct
                   correctAnswer := question.correctName
                   pointsEarned := pointsEarned
                   totalScore := player.score + pointsEarned }, session')

/-- Function `submitAnswer` from `sessionService.ts`, acting on the looked-up session.
The multiplayer-only anti-cheat guard reads
`session.questions[session.currentQuestionIndex]`; an out-of-range read makes
the JS crash on `.questionId`, embedded as a `TypeError` error value. -/
def submitAnswer (session : GameSession) (playerId questionId : String)
    (selectedIndex timeRemainingSeconds : Int) :
    Except String (AnswerResult × GameSession) :=
  if session.status ≠ .active then Except.error "Session is not active"
  else
    match session.questions.find? (fun q => q.questionId == questionId) with
    | none => Except.error "Question not found"
    | some question =>
      -- Anti-cheat: in multiplayer, only allow answering the current question
      if session.isMultiplayer then
        match session.questions[session.currentQuestionIndex]? with
        | none => Except.error "TypeError: cannot read property of undefined"
        | some currentQ =>
          if currentQ.questionId ≠ questionId then
            Except.error "Cannot answer a question that is not the current one"
          else
            submitAnswerTail session question playerId questionId selectedIndex
              timeRemainingSeconds
      else
        submitAnswerTail session question playerId questionId selectedIndex
          timeRemainingSeconds

/-- Structure `MultiplayerAnswerResult` from `types.ts`. -/
structure MultiplayerAnswerResult where
  correct : Bool
  correctAnswer : String
  pointsEarned : Int
  totalScore : Int
  playerName : String
  allAnswered : Bool
  standings : List PlayerInfo
  questionResults : List (String × PlayerAnswer)
deriving Repr, DecidableEq, Inhabited

/-- Stable insertion used to embed `[...players].sort((a, b) => b.score - a.score)`:
JS `Array.prototype.sort` is stable, so the result is the unique
score-descending reordering that keeps insertion order among ties. -/
def insertByScoreDesc (p : PlayerInfo) : List PlayerInfo → List PlayerInfo
  | [] => [p]
  | q :: qs =>
    if p.score < q.score then q :: insertByScoreDesc p qs else p :: q :: qs

/-- Embedding of `[...players].sort((a, b) => b.score - a.score)` — stable sort by score
descending. -/
def sortByScoreDesc : List PlayerInfo → List PlayerInfo
  | [] => []
  | p :: ps => insertByScoreDesc p (sortByScoreDesc ps)

/-- Function `submitMultiplayerAnswer` from `sessionService.ts`: same validation and
recording as `submitAnswer`, then — in the same atomic step — the all-answered
check over connected players, the standings snapshot, and this question's
recorded answers, all read from the post-recording session. -/
def submitMultiplayerAnswer (session : GameSession) (playerId questionId : String)
    (selectedIndex timeRemainingSeconds : Int) :
    Except String (MultiplayerAnswerResult × GameSession) :=
  if session.status ≠ .active then Except.error "Session is not active"
  else
    match session.questions.find? (fun q => q.questionId == questionId) with
    | none => Except.error "Question not found"
    | some question =>
      -- Anti-cheat: only allow answering the current question
      match session.questions[session.currentQuestionIndex]? with
      | none => Except.error "TypeError: cannot read property of undefined"
      | some currentQ =>
        if currentQ.questionId ≠ questionId then
          Except.error "Cannot answer a question that is not the current one"
        else
          match session.players.find? (fun p => p.playerId == playerId) with
          | none => Except.error "Player not found"
          | some player =>
            if (lookupAnswer session.answeredQuestions questionId playerId).isSome then
              Except.error "Already answered this question"
            else
              let clampedTime := clampTime timeRemainingSeconds session.settings.timePerQuestion
              let correct := selectedIndex == question.correctIndex
              let pointsEarned := calculateScore correct clampedTime session.settings.timePerQuestion
              let playerAnswer : PlayerAnswer :=
                { selectedIndex := selectedIndex
                  correct := correct
                  pointsEarned := pointsEarned
                  timeRemaining := clampedTime }
              let session' := recordAnswer session playerId questionId playerAnswer pointsEarned
              -- Check if all connected players have answered
              let questionAnswers := (recLookup session'.answeredQuestions questionId).getD []
              let connectedPlayers := session'.players.filter (fun p => p.connected)
              let allDone := connectedPlayers.all
                (fun p => (recLookup questionAnswers p.playerId).isSome)
              Except.ok ({ correct := correct
                           correctAnswer := question.correctName
                           pointsEarned := pointsEarned
                           totalScore := player.score + pointsEarned
                           playerName := player.name
                           allAnswered := allDone
                           standings := sortByScoreDesc session'.players
                           questionResults := questionAnswers }, session')

/-- Function `advanceQuestion` from `sessionService.ts`: increment the index; when it
passes the last question, mark the session finished and signal game over with
`none`. -/
def advanceQuestion (session : GameSession) :
    Option ClientQuestion × GameSession :=
  let session' := { session with currentQuestionIndex := session.currentQuestionIndex + 1 }
  if session'.questions.length ≤ session'.currentQuestionIndex then
    (none, { session' with status := .finished })
  else
    ((session'.questions[session'.currentQuestionIndex]?).map toClientQuestion, session')

/-- Function `removePlayer` from `sessionService.ts`: mark the player disconnected; a
removed host hands host status to the first connected other player, searched in
array order over the already-updated player list. -/
def removePlayer (session : GameSession) (playerId : String) : GameSession :=
  match session.players.find? (fun p => p.playerId == playerId) with
  | none => session
  | some player =>
    if player.isHost then
      let ps := updateFirst (fun p => p.playerId == playerId)
        (fun p => { p with connected := false, isHost := false }) session.players
      let ps' := updateFirst (fun p => p.connected && p.playerId != playerId)
        (fun p => { p with isHost := true }) ps
      { session with players := ps' }
    else
      let ps := updateFirst (fun p => p.playerId == playerId)
        (fun p => { p with connected := false }) session.players
      { session with players := ps }

/-! ## Pokémon name cleaning (`api/_lib/nameCleaningService.ts`)

The JS string primitives the service uses (`toLowerCase`, `split`, `join`,
`endsWith`, `charAt(0).toUpperCase() + slice(1).toLowerCase()`) are embedded
as structural functions over the character list of the string; all names the
service handles are ASCII. -/

/-- Map `SPECIAL_NAMES` from `nameCleaningService.ts`: exact-match overrides,
raw PokéAPI name → display name (every value is a non-empty string, so JS
truthiness of the lookup is embedded as `Option.isSome`). -/
def SPECIAL_NAMES : List (String × String) :=
  [("nidoran-f", "Nidoran♀"), ("nidoran-m", "Nidoran♂"), ("mr-mime", "Mr. Mime"),
   ("farfetchd", "Farfetch\x27d"), ("ho-oh", "Ho-Oh"), ("mime-jr", "Mime Jr."),
   ("porygon-z", "Porygon-Z"), ("flabebe", "Flabébé"), ("type-null", "Type: Null"),
   ("jangmo-o", "Jangmo-o"), ("hakamo-o", "Hakamo-o"), ("kommo-o", "Kommo-o"),
   ("tapu-koko", "Tapu Koko"), ("tapu-lele", "Tapu Lele"), ("tapu-bulu", "Tapu Bulu"),
   ("tapu-fini", "Tapu Fini"), ("mr-rime", "Mr. Rime"), ("sirfetchd", "Sirfetch\x27d"),
   ("wo-chien", "Wo-Chien"), ("chien-pao", "Chien-Pao"), ("ting-lu", "Ting-Lu"),
   ("chi-yu", "Chi-Yu"), ("great-tusk", "Great Tusk"), ("scream-tail", "Scream Tail"),
   ("brute-bonnet", "Brute Bonnet"), ("flutter-mane", "Flutter Mane"),
   ("slither-wing", "Slither Wing"), ("sandy-shocks", "Sandy Shocks"),
   ("iron-treads", "Iron Treads"), ("iron-bundle", "Iron Bundle"),
   ("iron-hands", "Iron Hands"), ("iron-jugulis", "Iron Jugulis"),
   ("iron-moth", "Iron Moth"), ("iron-thorns", "Iron Thorns"),
   ("roaring-moon", "Roaring Moon"), ("iron-valiant", "Iron Valiant"),
   ("walking-wake", "Walking Wake"), ("iron-leaves", "Iron Leaves"),
   ("gouging-fire", "Gouging Fire"), ("raging-bolt", "Raging Bolt"),
   ("iron-boulder", "Iron Boulder"), ("iron-crown", "Iron Crown")]

/-- Set `KNOWN_FORM_SUFFIXES` from `nameCleaningService.ts`. -/
def KNOWN_FORM_SUFFIXES : List String :=
  ["normal", "attack", "defense", "speed", "plant", "sandy", "trash",
   "altered", "origin", "land", "sky", "standard", "zen", "incarnate",
   "therian", "black", "white", "ordinary", "resolute", "aria", "pirouette",
   "average", "small", "large", "super", "50", "10", "confined", "unbound",
   "baile", "pompom", "pau", "sensu", "midday", "midnight", "dusk",
   "solo", "school", "red", "orange", "yellow", "green", "blue", "indigo",
   "violet", "shield", "blade", "male", "female", "full", "meteor",
   "amped", "lowkey", "ice", "noice", "hangry", "crowned", "eternamax",
   "rapid", "single", "family", "three", "four", "hero", "stellar"]

/-- Embedding of JS `s.toLowerCase()` (ASCII). -/
def jsToLower (s : String) : String :=
  String.mk (s.data.map Char.toLower)

/-- Split a character list at every hyphen, keeping empty segments
(the semantics of JS `s.split(\x27-\x27)`). -/
def splitDashChars : List Char → List (List Char)
  | [] => [[]]
  | c :: cs =>
    if c = '-' then [] :: splitDashChars cs
    else
      match splitDashChars cs with
      | [] => [[c]]
      | r :: rs => (c :: r) :: rs

/-- Embedding of JS `s.split(\x27-\x27)`. -/
def jsSplitDash (s : String) : List String :=
  (splitDashChars s.data).map String.mk

/-- Embedding of JS `parts.join(sep)`. -/
def jsJoin (sep : String) : List String → String
  | [] => ""
  | [s] => s
  | s :: rest => s ++ sep ++ jsJoin sep rest

/-- Embedding of JS `s.endsWith(suffix)`. -/
def jsEndsWith (s suffix : String) : Bool :=
  s.data.reverse.take suffix.data.length == suffix.data.reverse

/-- Function `capitalize` from `nameCleaningService.ts`:
`word.charAt(0).toUpperCase() + word.slice(1).toLowerCase()`. -/
def capitalize (word : String) : String :=
  match word.data with
  | [] => word
  | c :: cs => String.mk (c.toUpper :: cs.map Char.toLower)

/-- The test `KEEP_HYPHEN_PATTERNS.some((p) => p.test(baseName))` from
`nameCleaningService.ts`: each pattern is either a case-insensitive exact
match (`^...$` anchors) or a case-insensitive suffix match (`mo-o$`). -/
def keepHyphen (s : String) : Bool :=
  let l := jsToLower s
  l == "ho-oh" || l == "porygon-z" || jsEndsWith l "mo-o" ||
    l == "wo-chien" || l == "chien-pao" || l == "ting-lu" || l == "chi-yu"

/-- Function `stripFormSuffix` from `nameCleaningService.ts`. -/
def stripFormSuffix (name : String) : String :=
  let parts := jsSplitDash (jsToLower name)
  if parts.length ≤ 1 then name
  else
    let lastPart := parts.getLastD ""
    if KNOWN_FORM_SUFFIXES.contains lastPart then
      let stripped := jsJoin "-" parts.dropLast
      if 0 < stripped.length then stripped else name
    else name

/-- Function `cleanPokemonName` from `nameCleaningService.ts`. -/
def cleanPokemonName (rawName : String) : String :=
  match recLookup SPECIAL_NAMES (jsToLower rawName) with
  | some special => special
  | none =>
    let baseName := stripFormSuffix rawName
    match recLookup SPECIAL_NAMES (jsToLower baseName) with
    | some special => special
    | none =>
      if keepHyphen baseName then
        jsJoin "-" ((jsSplitDash baseName).map capitalize)
      else
        jsJoin " " ((jsSplitDash baseName).map capitalize)

/-! ## Question generation (current PokeAPI service revision)

The current `generateQuestions` (the type-aware revision of
`api/_lib/pokeApiService.ts`) first performs network I/O (fetch rounds
against PokéAPI); everything from the species dedup on is deterministic given
the fetched pool and the `Math.random` draws.  That deterministic tail is
embedded here: the pool is the `validPokemon` parameter, and each
`Math.floor(Math.random() * (i + 1))` draw of a Fisher–Yates shuffle is
supplied by an oracle `rand` (reduced `% (i + 1)` to the range the source
draws from); the pool shuffle, the per-question type-matched shuffle, and the
per-question option shuffle get separate oracles.  `fetchPokemon` builds each
record with `speciesName := data.species?.name ?? data.name` and
`name := cleanPokemonName(speciesName)`. -/

/-- Structure `PokemonData` from the current `types.ts` (with `speciesName`
and `types`, as built by `fetchPokemon`). -/
structure PokemonData where
  id : Nat
  name : String
  speciesName : String
  types : List String
  imageUrl : String
deriving Repr, DecidableEq, Inhabited

/-- One swap `[a[i], a[j]] = [a[j], a[i]]` of the Fisher–Yates loop. -/
def listSwap (l : List α) (i j : Nat) : List α :=
  match l[i]?, l[j]? with
  | some a, some b => (l.set i b).set j a
  | _, _ => l

/-- The Fisher–Yates loop of `shuffleArray`, counting `i` down to 1; at index
`i` the source draws `j = Math.floor(Math.random() * (i + 1)) ∈ [0, i]`. -/
def fyLoop (rand : Nat → Nat) : Nat → List α → List α
  | 0, l => l
  | k + 1, l => fyLoop rand k (listSwap l (k + 1) (rand (k + 1) % (k + 2)))

/-- Function `shuffleArray` from the PokeAPI service (Fisher–Yates on a copy). -/
def shuffleArray (rand : Nat → Nat) (l : List α) : List α :=
  fyLoop rand (l.length - 1) l

/-- The `seenSpecies` dedup pass of `generateQuestions`: keep the first record
for each species name. -/
def dedupeBySpecies (seen : List String) : List PokemonData → List PokemonData
  | [] => []
  | p :: ps =>
    if seen.contains p.speciesName then dedupeBySpecies seen ps
    else p :: dedupeBySpecies (p.speciesName :: seen) ps

/-- Lookup `typeIndex.get(t)` of `generateQuestions`: the source builds the
`Map` by walking `distractorPool` in order and pushing each record onto the
list of each of its types, so the list stored under `t` is exactly the
pool-order sublist of records having type `t`. -/
def typeIndexGet (distractorPool : List PokemonData) (t : String) :
    List PokemonData :=
  distractorPool.filter (fun p => p.types.contains t)

/-- The inner candidate loop of `generateQuestions` for one type `t`:
`for (const c of candidates)` pushes `c` onto `typeMatched` (the accumulator
`acc`) when it is a different species from the correct answer, not yet used,
and not already collected. -/
def addCandidates (correctSpecies : String) (used : List String)
    (acc : List PokemonData) : List PokemonData → List PokemonData
  | [] => acc
  | c :: rest =>
    if c.speciesName != correctSpecies && !(used.contains c.speciesName) &&
        !(acc.any (fun tm => tm.speciesName == c.speciesName)) then
      addCandidates correctSpecies used (acc ++ [c]) rest
    else
      addCandidates correctSpecies used acc rest

/-- The outer candidate loop of `generateQuestions`:
`for (const t of correct.types)` runs the candidate loop on `typeIndex.get(t)`
(`usedSpecies` is not mutated during collection). -/
def collectTypeMatched (distractorPool : List PokemonData)
    (correctSpecies : String) (used : List String) (acc : List PokemonData) :
    List String → List PokemonData
  | [] => acc
  | t :: ts =>
    collectTypeMatched distractorPool correctSpecies used
      (addCandidates correctSpecies used acc (typeIndexGet distractorPool t)) ts

/-- The pick loop of `generateQuestions`:
`for (const tm of shuffledTypeMatched)` breaks once `distractors.length >= 2`,
otherwise adds the species to `usedSpecies` and pushes the record. -/
def pickUpToTwo (used : List String) (ds : List PokemonData) :
    List PokemonData → List PokemonData × List String
  | [] => (ds, used)
  | tm :: rest =>
    if 2 ≤ ds.length then (ds, used)
    else pickUpToTwo (tm.speciesName :: used) (ds ++ [tm]) rest

/-- The fill loop of `generateQuestions`: `for (const p of distractorPool)`
breaks once `distractors.length >= 3`, otherwise pushes `p` (marking its
species used) when its species differs from the correct answer and is not yet
used. -/
def fillFromPool (correctSpecies : String) (used : List String)
    (ds : List PokemonData) : List PokemonData → List PokemonData × List String
  | [] => (ds, used)
  | p :: rest =>
    if 3 ≤ ds.length then (ds, used)
    else if p.speciesName != correctSpecies && !(used.contains p.speciesName) then
      fillFromPool correctSpecies (p.speciesName :: used) (ds ++ [p]) rest
    else
      fillFromPool correctSpecies used ds rest

/-- The emergency fallback of `generateQuestions`: when fewer than 3
distractors were found, `for (const p of uniquePokemon)` relaxes the
`usedSpecies` constraint, pushing any record whose species differs from the
correct answer and from every already-chosen distractor (without updating
`usedSpecies`). -/
def relaxFill (correctSpecies : String) (ds : List PokemonData) :
    List PokemonData → List PokemonData
  | [] => ds
  | p :: rest =>
    if 3 ≤ ds.length then ds
    else if p.speciesName != correctSpecies &&
        !(ds.any (fun d => d.speciesName == p.speciesName)) then
      relaxFill correctSpecies (ds ++ [p]) rest
    else
      relaxFill correctSpecies ds rest

/-- The distractor-assembly stages of one iteration of the per-question loop,
applied to the already-shuffled type-matched candidates `stm`: pick up to 2 of
them, fill to 3 from the distractor pool, relax over `uniquePokemon` if still
short.  Returns the chosen distractors and the updated `usedSpecies` (the
relax loop does not update it, as in the source). -/
def questionDistractors (uniquePokemon distractorPool : List PokemonData)
    (correctSpecies : String) (used : List String) (stm : List PokemonData) :
    List PokemonData × List String :=
  let pick := pickUpToTwo used [] stm
  let fill := fillFromPool correctSpecies pick.2 pick.1 distractorPool
  let ds := if fill.1.length < 3 then
      relaxFill correctSpecies fill.1 uniquePokemon
    else fill.1
  (ds, fill.2)

/-- The per-question loop of `generateQuestions`
(`for (const correct of correctPokemon)`): collect type-matched candidates,
shuffle them, run the distractor-assembly stages, shuffle the 1 + 3 display
names, and record `correctIndex` via `indexOf`.  The mutated `usedSpecies`
(`used`) and the question counter `i` (standing in for the fresh UUID draw)
are threaded through the recursion. -/
def buildQuestions (uniquePokemon distractorPool : List PokemonData)
    (tmRand optRand : Nat → Nat → Nat) (qid : Nat → String) :
    Nat → List String → List PokemonData → List Question
  | _, _, [] => []
  | i, used, correct :: rest =>
    let tm := collectTypeMatched distractorPool correct.speciesName used []
      correct.types
    let dsu := questionDistractors uniquePokemon distractorPool
      correct.speciesName used (shuffleArray (tmRand i) tm)
    let options := shuffleArray (optRand i)
      ((correct :: dsu.1).map (fun p => p.name))
    { questionId := qid i
      imageUrl := correct.imageUrl
      options := options
      correctIndex := jsIndexOf options correct.name
      correctName := correct.name
      pokemonId := correct.id } ::
      buildQuestions uniquePokemon distractorPool tmRand optRand qid (i + 1)
        dsu.2 rest

/-- The deterministic tail of the current `generateQuestions` (from the
species dedup to the end): dedupe the fetched pool by species name, fail when
fewer than `questionCount * 4` distinct species remain, shuffle, take the
first `questionCount` records as correct answers (the rest form the
distractor pool), seed `usedSpecies` with the correct species, and run the
per-question loop. -/
def generateQuestionsFromPool (settings : GameSettings)
    (validPokemon : List PokemonData) (poolRand : Nat → Nat)
    (tmRand optRand : Nat → Nat → Nat) (qid : Nat → String) :
    Except String (List Question) :=
  let questionsNeeded := settings.questionCount
  let minNeeded := questionsNeeded * 4
  let uniquePokemon := dedupeBySpecies [] validPokemon
  if uniquePokemon.length < minNeeded then
    Except.error "Not enough uniquely-named Pokemon."
  else
    let shuffled := shuffleArray poolRand uniquePokemon
    let correctPokemon := shuffled.take questionsNeeded
    let distractorPool := shuffled.drop questionsNeeded
    Except.ok (buildQuestions uniquePokemon distractorPool tmRand optRand qid 0
      (correctPokemon.map (fun p => p.speciesName)) correctPokemon)

/-! ## Reachability

One step per lifecycle operation of `sessionService.ts`, each relating the
looked-up session to the session the operation persists.  For
`joinMultiplayerSession` the store parameters are arbitrary, constrained only
to hand the operation the session being stepped. -/

/-- One persisted mutation of a stored session by a lifecycle operation. -/
inductive SessionStep : GameSession → GameSession → Prop where
  | join {s : GameSession} {ridx : String → Option String}
      {code name pid : String} {r : MultiplayerJoinResponse} {s' : GameSession} :
      joinMultiplayerSession ridx (fun _ => some s) code name pid = .ok (r, s') →
      SessionStep s s'
  | start {s : GameSession} {pid : String} {r : ClientQuestion × Nat × Nat}
      {s' : GameSession} :
      startGame s pid = .ok (r, s') → SessionStep s s'
  | submit {s : GameSession} {pid qid : String} {si t : Int} {r : AnswerResult}
      {s' : GameSession} :
      submitAnswer s pid qid si t = .ok (r, s') → SessionStep s s'
  | submitMP {s : GameSession} {pid qid : String} {si t : Int}
      {r : MultiplayerAnswerResult} {s' : GameSession} :
      submitMultiplayerAnswer s pid qid si t = .ok (r, s') → SessionStep s s'
  | advance {s : GameSession} {r : Option ClientQuestion} {s' : GameSession} :
      advanceQuestion s = (r, s') → SessionStep s s'
  | remove {s : GameSession} {pid : String} :
      SessionStep s (removePlayer s pid)

/-- Sessions reachable from a factory operation by lifecycle steps. -/
inductive ReachableSession : GameSession → Prop where
  | createSingle (sid pid name : String) (settings : GameSettings)
      (questions : List Question) (now : Nat) :
      ReachableSession (createSinglePlayerSession sid pid name settings questions now)
  | createMulti (sid pid name : String) (settings : GameSettings)
      (questions : List Question) (code : String) (now : Nat) :
      ReachableSession (createMultiplayerSession sid pid name settings questions code now)
  | step {s s' : GameSession} :
      ReachableSession s → SessionStep s s' → ReachableSession s'

/-! ## Concrete instances used as test vectors -/

/-- Rank of a status along the `waiting → active → finished` order. -/
def statusRank : SessionStatus → Nat
  | .waiting => 0
  | .active => 1
  | .finished => 2

/-- A concrete question for the test sessions. -/
def sampleQuestion : Question :=
  { questionId := "q1"
    imageUrl := "img1"
    options := ["Pikachu", "Eevee", "Mew", "Ditto"]
    correctIndex := 0
    correctName := "Pikachu"
    pokemonId := 25 }

/-- A concrete one-question single-player session. -/
def soloSession : GameSession :=
  createSinglePlayerSession "sid-solo" "p1" "ash"
    { questionCount := 1, timePerQuestion := 15, hardMode := false }
    [sampleQuestion] 0

/-- A concrete three-player multiplayer session on its first question. -/
def mpSession : GameSession :=
  { sessionId := "sid-mp"
    questions := [sampleQuestion]
    currentQuestionIndex := 0
    players := [createPlayer "h1" "ash" true, createPlayer "g2" "misty" false,
      createPlayer "g3" "brock" false]
    status := .active
    roomCode := some "ABCD"
    isMultiplayer := true
    settings := { questionCount := 1, timePerQuestion := 15, hardMode := false }
    answeredQuestions := []
    createdAt := 0 }

/-- Result and post-state of `soloSession`'s first single-player submission. -/
def soloAfter1 : AnswerResult × GameSession :=
  (submitAnswer soloSession "p1" "q1" 0 5).toOption.getD default

/-- Result and post-state of submitting on `soloSession` through the
multiplayer entry point. -/
def soloMPAfter : MultiplayerAnswerResult × GameSession :=
  (submitMultiplayerAnswer soloSession "p1" "q1" 0 5).toOption.getD default

/-- The answer `soloAfter1` records for `("q1", "p1")`. -/
def soloAnswer : PlayerAnswer :=
  (lookupAnswer soloAfter1.2.answeredQuestions "q1" "p1").getD default

/-- Result and post-state of `mpSession`'s first multiplayer submission. -/
def mpAfter1 : MultiplayerAnswerResult × GameSession :=
  (submitMultiplayerAnswer mpSession "h1" "q1" 0 5).toOption.getD default

/-- The session `soloSession` advanced twice past its single question. -/
def overAdvanced : GameSession :=
  (advanceQuestion (advanceQuestion soloSession).2).2

/-- Settings for the one-question generation runs below. -/
def oneQuestionSettings : GameSettings :=
  { questionCount := 1, timePerQuestion := 15, hardMode := false }

/-- A concrete fetched pool for a successful one-question generation run
(names as `fetchPokemon` computes them from the species names). -/
def w7pool : List PokemonData :=
  [{ id := 1, name := cleanPokemonName "bulbasaur", speciesName := "bulbasaur",
     types := ["grass", "poison"], imageUrl := "img1" },
   { id := 4, name := cleanPokemonName "charmander", speciesName := "charmander",
     types := ["fire"], imageUrl := "img4" },
   { id := 7, name := cleanPokemonName "squirtle", speciesName := "squirtle",
     types := ["water"], imageUrl := "img7" },
   { id := 25, name := cleanPokemonName "pikachu", speciesName := "pikachu",
     types := ["electric"], imageUrl := "img25" }]

/-- The questions generated from `w7pool` with identity shuffles. -/
def w7qs : List Question :=
  (generateQuestionsFromPool oneQuestionSettings w7pool (fun i => i)
    (fun _ i => i) (fun _ i => i) (fun _ => "wq")).toOption.getD []

/-- A fetched pool on which two records clean to the same display name:
`fetchPokemon` sets `speciesName := data.species?.name ?? data.name`, so a
payload lacking the `species` field keeps its form name
(`"darmanitan-standard"`) as its species name, while `cleanPokemonName`
strips the known form suffix `"standard"`, colliding with the plain
`"darmanitan"` record; the species-level dedup keeps both. -/
def c7pool : List PokemonData :=
  [{ id := 555, name := cleanPokemonName "darmanitan",
     speciesName := "darmanitan", types := ["fire"], imageUrl := "i555" },
   { id := 10017, name := cleanPokemonName "darmanitan-standard",
     speciesName := "darmanitan-standard", types := ["fire"],
     imageUrl := "i10017" },
   { id := 16, name := cleanPokemonName "pidgey", speciesName := "pidgey",
     types := ["normal", "flying"], imageUrl := "i16" },
   { id := 19, name := cleanPokemonName "rattata", speciesName := "rattata",
     types := ["normal"], imageUrl := "i19" }]

/-- The single question generated from `c7pool` with identity shuffles. -/
def c7question : Question :=
  ((generateQuestionsFromPool oneQuestionSettings c7pool (fun i => i)
    (fun _ i => i) (fun _ i => i) (fun _ => "dq")).toOption.getD []).headI

/-- A pool where the correct answer `P1` (water) has two unused same-type
candidates (`P5`, `P6`) in the distractor pool. -/
def c8pool : List PokemonData :=
  [{ id := 101, name := "P1", speciesName := "p1", types := ["water"],
     imageUrl := "i1" },
   { id := 102, name := "P2", speciesName := "p2", types := ["fire"],
     imageUrl := "i2" },
   { id := 103, name := "P3", speciesName := "p3", types := ["fire"],
     imageUrl := "i3" },
   { id := 104, name := "P4", speciesName := "p4", types := ["fire"],
     imageUrl := "i4" },
   { id := 105, name := "P5", speciesName := "p5", types := ["water"],
     imageUrl := "i5" },
   { id := 106, name := "P6", speciesName := "p6", types := ["water"],
     imageUrl := "i6" },
   { id := 107, name := "P7", speciesName := "p7", types := ["grass"],
     imageUrl := "i7" },
   { id := 108, name := "P8", speciesName := "p8", types := ["grass"],
     imageUrl := "i8" }]

/-- The distractor pool of the `c8pool` run (identity pool shuffle, one
correct answer taken off the front). -/
def c8dp : List PokemonData := c8pool.drop 1

/-- The water-typed record `P5` of `c8pool` (the first type-matched
candidate the run selects). -/
def c8P5 : PokemonData :=
  { id := 105, name := "P5", speciesName := "p5", types := ["water"],
    imageUrl := "i5" }

/-- The single question generated from `c8pool` with identity shuffles. -/
def c8question : Question :=
  ((generateQuestionsFromPool oneQuestionSettings c8pool (fun i => i)
    (fun _ i => i) (fun _ i => i) (fun _ => "cq")).toOption.getD []).headI

/-! ## Helper lemmas -/

theorem char_toNat_ofNat_valid {m : Nat} (h : m.isValidChar) :
    (Char.ofNat m).toNat = m := by
  simp only [Char.ofNat, h, dif_pos, Char.ofNatAux, Char.toNat, UInt32.toNat]
  rfl

theorem char_toUpper_toNat_of_lower (c : Char)
    (h : 97 ≤ c.toNat ∧ c.toNat ≤ 122) : c.toUpper.toNat = c.toNat - 32 := by
  have hv : (c.toNat - 32).isValidChar := Or.inl (by omega)
  simp only [Char.toUpper, h, and_self, if_pos, ge_iff_le]
  exact char_toNat_ofNat_valid hv

theorem char_toUpper_idem (c : Char) : c.toUpper.toUpper = c.toUpper := by
  by_cases h : 97 ≤ c.toNat ∧ c.toNat ≤ 122
  · have h1 : c.toUpper.toNat = c.toNat - 32 := char_toUpper_toNat_of_lower c h
    have h2 : ¬(97 ≤ c.toUpper.toNat ∧ c.toUpper.toNat ≤ 122) := by omega
    simp only [Char.toUpper, ge_iff_le] at h2 ⊢
    rw [if_neg (by simpa [Char.toUpper, ge_iff_le, h.1, h.2] using h2)]
  · have h1 : c.toUpper = c := by
      simp only [Char.toUpper, ge_iff_le]
      rw [if_neg (by omega)]
    simp [h1]

theorem string_toUpper_idem (s : String) : s.toUpper.toUpper = s.toUpper := by
  simp only [String.toUpper, String.map_eq, List.map_map]
  exact congrArg String.mk (List.map_congr_left fun c _ => char_toUpper_idem c)

theorem recLookup_recInsert_self (m : List (String × β)) (k : String) (v : β) :
    recLookup (recInsert m k v) k = some v := by
  induction m with
  | nil => simp [recLookup, recInsert]
  | cons kv rest ih =>
    by_cases h : kv.1 = k
    · simp [recLookup, recInsert, h]
    · simp only [recInsert, beq_iff_eq, h, if_false, recLookup]
      exact ih

theorem recLookup_recInsert_ne (m : List (String × β)) (k k' : String) (v : β)
    (h : k' ≠ k) : recLookup (recInsert m k v) k' = recLookup m k' := by
  induction m with
  | nil => simp [recLookup, recInsert, beq_iff_eq, Ne.symm h]
  | cons kv rest ih =>
    by_cases hk : kv.1 = k
    · simp [recLookup, recInsert, beq_iff_eq, hk, Ne.symm h]
    · simp only [recInsert, beq_iff_eq, hk, if_false, recLookup]
      rw [ih]

theorem lookupAnswer_recordAnswer_self (s : GameSession) (pid qid : String)
    (pa : PlayerAnswer) (pts : Int) :
    lookupAnswer (recordAnswer s pid qid pa pts).answeredQuestions qid pid = some pa := by
  simp [lookupAnswer, recordAnswer, recLookup_recInsert_self]

theorem lookupAnswer_recordAnswer_preserves (s : GameSession) (pid qid q p : String)
    (pa a : PlayerAnswer) (pts : Int)
    (hnew : lookupAnswer s.answeredQuestions qid pid = none)
    (hold : lookupAnswer s.answeredQuestions q p = some a) :
    lookupAnswer (recordAnswer s pid qid pa pts).answeredQuestions q p = some a := by
  unfold lookupAnswer recordAnswer at *
  by_cases hq : q = qid
  · subst hq
    rcases hinner : recLookup s.answeredQuestions q with _ | inner
    · rw [hinner] at hold
      exact absurd hold (by simp)
    · rw [hinner] at hold hnew
      simp only at hold hnew
      have hp : p ≠ pid := by
        intro hpe
        rw [hpe, hnew] at hold
        exact Option.noConfusion hold
      simp only [hinner, Option.getD_some, recLookup_recInsert_self]
      rw [recLookup_recInsert_ne _ _ _ _ hp]
      exact hold
  · simp only
    rw [recLookup_recInsert_ne _ _ _ _ hq]
    exact hold

theorem updateFirst_map_proj {α : Type} (proj : α → γ) (pred : α → Bool) (f : α → α)
    (hpf : ∀ x, proj (f x) = proj x) (l : List α) :
    (updateFirst pred f l).map proj = l.map proj := by
  induction l with
  | nil => rfl
  | cons a rest ih =>
    by_cases h : pred a
    · simp [updateFirst, h, hpf]
    · simp [updateFirst, h, ih]

theorem find?_updateFirst_same {α : Type} (pred : α → Bool) (f : α → α)
    (hpf : ∀ x, pred (f x) = pred x) (l : List α) :
    (updateFirst pred f l).find? pred = (l.find? pred).map f := by
  induction l with
  | nil => rfl
  | cons a rest ih =>
    by_cases h : pred a
    · simp [updateFirst, h, List.find?_cons_of_pos, hpf]
    · simp only [updateFirst, h, if_false, Bool.false_eq_true]
      rw [List.find?_cons_of_neg _ h, List.find?_cons_of_neg _ h, ih]

theorem updateFirst_eq_self_of_no_match {α : Type} (pred : α → Bool) (f : α → α)
    (l : List α) (h : ∀ x ∈ l, pred x = false) : updateFirst pred f l = l := by
  induction l with
  | nil => rfl
  | cons a rest ih =>
    have ha := h a (by simp)
    simp only [updateFirst, ha, Bool.false_eq_true, if_false]
    rw [ih (fun x hx => h x (by simp [hx]))]

/-! ### Success-case inversion of the lifecycle operations -/

theorem submitAnswerTail_ok_inversion {s : GameSession} {question : Question}
    {pid qid : String} {si t : Int} {r : AnswerResult} {s' : GameSession}
    (h : submitAnswerTail s question pid qid si t = .ok (r, s')) :
    ∃ player, s.players.find? (fun p => p.playerId == pid) = some player ∧
      lookupAnswer s.answeredQuestions qid pid = none ∧
      s' = recordAnswer s pid qid
        { selectedIndex := si
          correct := si == question.correctIndex
          pointsEarned := calculateScore (si == question.correctIndex)
            (clampTime t s.settings.timePerQuestion) s.settings.timePerQuestion
          timeRemaining := clampTime t s.settings.timePerQuestion }
        (calculateScore (si == question.correctIndex)
          (clampTime t s.settings.timePerQuestion) s.settings.timePerQuestion) ∧
      r = { correct := si == question.correctIndex
            correctAnswer := question.correctName
            pointsEarned := calculateScore (si == question.correctIndex)
              (clampTime t s.settings.timePerQuestion) s.settings.timePerQuestion
            totalScore := player.score + calculateScore (si == question.correctIndex)
              (clampTime t s.settings.timePerQuestion) s.settings.timePerQuestion } := by
  simp only [submitAnswerTail] at h
  split at h
  · exact absurd h (by simp [throw, throwThe, MonadExceptOf.throw])
  · rename_i player hfind
    split at h
    · exact absurd h (by simp [throw, throwThe, MonadExceptOf.throw])
    · rename_i hnone
      simp only [Except.ok.injEq, Prod.mk.injEq] at h
      refine ⟨player, hfind, ?_, h.2.symm, h.1.symm⟩
      simpa using hnone

theorem submitAnswer_ok_inversion {s : GameSession} {pid qid : String}
    {si t : Int} {r : AnswerResult} {s' : GameSession}
    (h : submitAnswer s pid qid si t = .ok (r, s')) :
    s.status = .active ∧
    (s.isMultiplayer = true →
      ∃ currentQ, s.questions[s.currentQuestionIndex]? = some currentQ ∧
        currentQ.questionId = qid) ∧
    ∃ question, s.questions.find? (fun q => q.questionId == qid) = some question ∧
      submitAnswerTail s question pid qid si t = .ok (r, s') := by
  simp only [submitAnswer] at h
  split at h
  · exact absurd h (by simp [throw, throwThe, MonadExceptOf.throw])
  · rename_i hstatus
    split at h
    · exact absurd h (by simp [throw, throwThe, MonadExceptOf.throw])
    · rename_i question hfind
      split at h
      · rename_i hmp
        split at h
        · exact absurd h (by simp [throw, throwThe, MonadExceptOf.throw])
        · rename_i currentQ hcur
          split at h
          · exact absurd h (by simp [throw, throwThe, MonadExceptOf.throw])
          · rename_i hqid
            refine ⟨by simpa using hstatus, ?_, question, hfind, h⟩
            intro _
            exact ⟨currentQ, hcur, by simpa using hqid⟩
      · rename_i hmp
        refine ⟨by simpa using hstatus, ?_, question, hfind, h⟩
        intro hmp'
        exact absurd hmp' (by simpa using hmp)

theorem submitMultiplayerAnswer_ok_inversion {s : GameSession} {pid qid : String}
    {si t : Int} {res : MultiplayerAnswerResult} {s' : GameSession}
    (h : submitMultiplayerAnswer s pid qid si t = .ok (res, s')) :
    s.status = .active ∧
    (∃ currentQ, s.questions[s.currentQuestionIndex]? = some currentQ ∧
      currentQ.questionId = qid) ∧
    ∃ question player,
      s.questions.find? (fun q => q.questionId == qid) = some question ∧
      s.players.find? (fun p => p.playerId == pid) = some player ∧
      lookupAnswer s.answeredQuestions qid pid = none ∧
      s' = recordAnswer s pid qid
        { selectedIndex := si
          correct := si == question.correctIndex
          pointsEarned := calculateScore (si == question.correctIndex)
            (clampTime t s.settings.timePerQuestion) s.settings.timePerQuestion
          timeRemaining := clampTime t s.settings.timePerQuestion }
        (calculateScore (si == question.correctIndex)
          (clampTime t s.settings.timePerQuestion) s.settings.timePerQuestion) ∧
      res = { correct := si == question.correctIndex
              correctAnswer := question.correctName
              pointsEarned := calculateScore (si == question.correctIndex)
                (clampTime t s.settings.timePerQuestion) s.settings.timePerQuestion
              totalScore := player.score + calculateScore (si == question.correctIndex)
                (clampTime t s.settings.timePerQuestion) s.settings.timePerQuestion
              playerName := player.name
              allAnswered := (s'.players.filter (fun p => p.connected)).all
                (fun p => (recLookup ((recLookup s'.answeredQuestions qid).getD [])
                  p.playerId).isSome)
              standings := sortByScoreDesc s'.players
              questionResults := (recLookup s'.answeredQuestions qid).getD [] } := by
  simp only [submitMultiplayerAnswer] at h
  split at h
  · exact absurd h (by simp [throw, throwThe, MonadExceptOf.throw])
  · rename_i hstatus
    split at h
    · exact absurd h (by simp [throw, throwThe, MonadExceptOf.throw])
    · rename_i question hfind
      split at h
      · exact absurd h (by simp [throw, throwThe, MonadExceptOf.throw])
      · rename_i currentQ hcur
        split at h
        · exact absurd h (by simp [throw, throwThe, MonadExceptOf.throw])
        · rename_i hqid
          split at h
          · exact absurd h (by simp [throw, throwThe, MonadExceptOf.throw])
          · rename_i player hpfind
            split at h
            · exact absurd h (by simp [throw, throwThe, MonadExceptOf.throw])
            · rename_i hnone
              simp only [Except.ok.injEq, Prod.mk.injEq] at h
              obtain ⟨hres, hs'⟩ := h
              refine ⟨by simpa using hstatus,
                ⟨currentQ, hcur, by simpa using hqid⟩,
                question, player, hfind, hpfind, by simpa using hnone,
                hs'.symm, ?_⟩
              rw [← hres, hs']

theorem startGame_ok_inversion {s : GameSession} {pid : String}
    {r : ClientQuestion × Nat × Nat} {s' : GameSession}
    (h : startGame s pid = .ok (r, s')) :
    s.status = .waiting ∧
    s' = { s with status := .active, currentQuestionIndex := 0 } ∧
    (∃ player, s.players.find? (fun p => p.playerId == pid) = some player ∧
      player.isHost = true) ∧
    2 ≤ (s.players.filter (fun p => p.connected)).length ∧
    (∃ firstQuestion, s.questions[0]? = some firstQuestion ∧
      r = (toClientQuestion firstQuestion, 0, s.questions.length)) := by
  simp only [startGame] at h
  split at h
  · exact absurd h (by simp [throw, throwThe, MonadExceptOf.throw])
  · rename_i player hfind
    split at h
    · exact absurd h (by simp [throw, throwThe, MonadExceptOf.throw])
    · rename_i hhost
      split at h
      · exact absurd h (by simp [throw, throwThe, MonadExceptOf.throw])
      · rename_i hcount
        split at h
        · exact absurd h (by simp [throw, throwThe, MonadExceptOf.throw])
        · rename_i hstatus
          split at h
          · exact absurd h (by simp [throw, throwThe, MonadExceptOf.throw])
          · rename_i firstQuestion hq0
            simp only [Except.ok.injEq, Prod.mk.injEq] at h
            exact ⟨by simpa using hstatus, h.2.symm,
              ⟨player, hfind, by simpa using hhost⟩,
              by omega,
              ⟨firstQuestion, hq0, h.1.symm⟩⟩

theorem joinMultiplayerSession_ok_inversion {s : GameSession}
    {ridx : String → Option String} {code name newPid : String}
    {r : MultiplayerJoinResponse} {s' : GameSession}
    (h : joinMultiplayerSession ridx (fun _ => some s) code name newPid = .ok (r, s')) :
    s.status = .waiting ∧
    s.players.length < MAX_PLAYERS ∧
    s' = { s with players := s.players ++ [createPlayer newPid name false] } := by
  simp only [joinMultiplayerSession] at h
  split at h
  · exact absurd h (by simp [throw, throwThe, MonadExceptOf.throw])
  · split at h
    · exact absurd h (by simp [throw, throwThe, MonadExceptOf.throw])
    · rename_i hstatus
      split at h
      · exact absurd h (by simp [throw, throwThe, MonadExceptOf.throw])
      · rename_i hlen
        split at h
        · exact absurd h (by simp [throw, throwThe, MonadExceptOf.throw])
        · simp only [pure, Except.pure, Except.ok.injEq, Prod.mk.injEq] at h
          refine ⟨by simpa using hstatus, by omega, h.2.symm⟩

theorem advanceQuestion_inversion (s : GameSession) :
    (advanceQuestion s).2.currentQuestionIndex = s.currentQuestionIndex + 1 ∧
    (advanceQuestion s).2.questions = s.questions ∧
    (advanceQuestion s).2.players = s.players ∧
    (advanceQuestion s).2.answeredQuestions = s.answeredQuestions ∧
    ((advanceQuestion s).2.status = s.status ∨ (advanceQuestion s).2.status = .finished) ∧
    ((advanceQuestion s).2.status ≠ .finished →
      (advanceQuestion s).2.currentQuestionIndex < (advanceQuestion s).2.questions.length) := by
  by_cases hlen : s.questions.length ≤ s.currentQuestionIndex + 1
  · simp [advanceQuestion, hlen]
  · have h2 := Nat.lt_of_not_le hlen
    simp [advanceQuestion, hlen, h2]

theorem removePlayer_frame (s : GameSession) (pid : String) :
    (removePlayer s pid).status = s.status ∧
    (removePlayer s pid).currentQuestionIndex = s.currentQuestionIndex ∧
    (removePlayer s pid).questions = s.questions ∧
    (removePlayer s pid).answeredQuestions = s.answeredQuestions := by
  unfold removePlayer
  split
  · exact ⟨rfl, rfl, rfl, rfl⟩
  · split
    · exact ⟨rfl, rfl, rfl, rfl⟩
    · exact ⟨rfl, rfl, rfl, rfl⟩

/-! ## C10 — joining is case-insensitive in the room code -/

/-- C10: `joinMultiplayerSession` behaves identically on a room code and on its
uppercased form, for every store, because the code is uppercased before the
`room:{code}` lookup. -/
theorem joinMultiplayerSession_roomCode_case_insensitive
    (roomIndex : String → Option String) (store : String → Option GameSession)
    (roomCode playerName newPlayerId : String) :
    joinMultiplayerSession roomIndex store roomCode playerName newPlayerId =
      joinMultiplayerSession roomIndex store roomCode.toUpper playerName newPlayerId := by
  unfold joinMultiplayerSession
  rw [string_toUpper_idem]

/-! ## C3 — the scoring function computes its float formula, not the exact one -/

/-- C3 (code evaluated at the failing inputs): the source's
`Math.floor(200 * (t / T))` runs in binary64, and at the in-range inputs
`t = 23, T = 40` it yields bonus 114 (score 314) where the claimed exact
formula `⌊200 * t / T⌋` gives 115 (score 315); likewise `t = 29, T = 50` gives
315 against the formula's 316.  The incorrect case is 0 everywhere and the
spec's own example `score(true, 10, 15) = 333` does hold — the float and
exact values agree there. -/
theorem calculateScore_float_rounding_shortfall :
    calculateScoreFloat true 23 40 = 314 ∧
    200 + ⌊(200 * (23 : ℚ)) / 40⌋ = 315 ∧
    calculateScore true 23 40 = 315 ∧
    calculateScoreFloat true 29 50 = 315 ∧
    200 + ⌊(200 * (29 : ℚ)) / 50⌋ = 316 ∧
    (∀ t T : ℚ, calculateScoreFloat false t T = 0) ∧
    calculateScoreFloat true 10 15 = 333 ∧
    200 + ⌊(200 * (10 : ℚ)) / 15⌋ = 333 := by
  refine ⟨?_, ?_, ?_, ?_, ?_, fun t T => rfl, ?_, ?_⟩
  · norm_num [calculateScoreFloat, floatRound, floatExp, floatExpAux, rnHalfEven]
  · norm_num
  · decide
  · norm_num [calculateScoreFloat, floatRound, floatExp, floatExpAux, rnHalfEven]
  · norm_num
  · norm_num [calculateScoreFloat, floatRound, floatExp, floatExpAux, rnHalfEven]
  · norm_num

/-! ## C5 — the client projection carries exactly the public fields -/

/-- C5: `toClientQuestion` is insensitive to the server-only fields
(`correctIndex`, `correctName`, `pokemonId`) — two questions differing only
there project identically — and a `ClientQuestion` carries exactly
`questionId`, `imageUrl` and `options`, copied from the question. -/
theorem toClientQuestion_contains_exactly_public_fields :
    (∀ (q : Question) (ci : Int) (cn : String) (pid : Nat),
      toClientQuestion { q with correctIndex := ci, correctName := cn, pokemonId := pid } =
        toClientQuestion q) ∧
    (∀ q : Question,
      (toClientQuestion q).questionId = q.questionId ∧
      (toClientQuestion q).imageUrl = q.imageUrl ∧
      (toClientQuestion q).options = q.options) ∧
    (∀ q : Question, toClientQuestion q =
      { questionId := q.questionId, imageUrl := q.imageUrl, options := q.options }) :=
  ⟨fun _ _ _ _ => rfl, fun _ => ⟨rfl, rfl, rfl⟩, fun _ => rfl⟩

/-! ## C6 — `timeRemaining` is clamped before scoring and recording -/

theorem submitAnswerTail_clamp_congr (s : GameSession) (question : Question)
    (pid qid : String) (si : Int) {t t' : Int}
    (hc : clampTime t s.settings.timePerQuestion =
      clampTime t' s.settings.timePerQuestion) :
    submitAnswerTail s question pid qid si t =
      submitAnswerTail s question pid qid si t' := by
  unfold submitAnswerTail
  rw [hc]

/-- C6: with `settings.timePerQuestion = 15`, submitting `timeRemaining = 999`
produces exactly the same result and post-state as submitting
`timeRemaining = 15` — in particular the same `pointsEarned`, the same recorded
`PlayerAnswer.timeRemaining`, and the same resulting score. -/
theorem submitAnswer_clamps_timeRemaining (s : GameSession) (pid qid : String)
    (si : Int) (h15 : s.settings.timePerQuestion = 15) :
    submitAnswer s pid qid si 999 = submitAnswer s pid qid si 15 := by
  have hc : clampTime 999 s.settings.timePerQuestion =
      clampTime 15 s.settings.timePerQuestion := by
    rw [h15]
    decide
  have htail : ∀ question, submitAnswerTail s question pid qid si 999 =
      submitAnswerTail s question pid qid si 15 :=
    fun q => submitAnswerTail_clamp_congr s q pid qid si hc
  unfold submitAnswer
  split
  · rfl
  · split
    · rfl
    · split
      · split
        · rfl
        · split
          · rfl
          · exact htail _
      · exact htail _

/-- Witness for C6 on the concrete session `soloSession`. -/
theorem submitAnswer_clamps_timeRemaining_witness :
    soloSession.settings.timePerQuestion = 15 ∧
    submitAnswer soloSession "p1" "q1" 0 999 = submitAnswer soloSession "p1" "q1" 0 15 :=
  ⟨rfl, submitAnswer_clamps_timeRemaining soloSession "p1" "q1" 0 rfl⟩

/-! ## C2 — at most one `PlayerAnswer` per `(questionId, playerId)` pair -/

theorem recordAnswer_frame (s : GameSession) (pid qid : String)
    (pa : PlayerAnswer) (pts : Int) :
    (recordAnswer s pid qid pa pts).status = s.status ∧
    (recordAnswer s pid qid pa pts).questions = s.questions ∧
    (recordAnswer s pid qid pa pts).currentQuestionIndex = s.currentQuestionIndex ∧
    (recordAnswer s pid qid pa pts).isMultiplayer = s.isMultiplayer ∧
    (recordAnswer s pid qid pa pts).settings = s.settings :=
  ⟨rfl, rfl, rfl, rfl, rfl⟩

theorem recordAnswer_find_player (s : GameSession) (pid qid : String)
    (pa : PlayerAnswer) (pts : Int) :
    (recordAnswer s pid qid pa pts).players.find? (fun p => p.playerId == pid) =
      (s.players.find? (fun p => p.playerId == pid)).map
        (fun p => { p with score := p.score + pts }) :=
  find?_updateFirst_same (fun p => p.playerId == pid)
    (fun p => { p with score := p.score + pts }) (fun _ => rfl) s.players

/-- Forward evaluation: when the pair already has a recorded answer (and the
earlier checks pass), `submitAnswer` fails with the conflict error. -/
theorem submitAnswer_already_answered (s : GameSession) (pid qid : String)
    (si t : Int) (hstatus : s.status = .active)
    (hq : ∃ question, s.questions.find? (fun q => q.questionId == qid) = some question)
    (hguard : s.isMultiplayer = true →
      ∃ currentQ, s.questions[s.currentQuestionIndex]? = some currentQ ∧
        currentQ.questionId = qid)
    (hp : (s.players.find? (fun p => p.playerId == pid)).isSome)
    (hdup : (lookupAnswer s.answeredQuestions qid pid).isSome) :
    submitAnswer s pid qid si t = .error "Already answered this question" := by
  obtain ⟨question, hqe⟩ := hq
  obtain ⟨player, hpe⟩ := Option.isSome_iff_exists.mp hp
  have htail : submitAnswerTail s question pid qid si t =
      .error "Already answered this question" := by
    unfold submitAnswerTail
    rw [hpe]
    simp [hdup]
  unfold submitAnswer
  rw [hqe]
  by_cases hmp : s.isMultiplayer
  · obtain ⟨currentQ, hcq, hcqid⟩ := hguard (by simpa using hmp)
    simp [hstatus, hmp, hcq, hcqid, htail]
  · simp [hstatus, hmp, htail]

/-- Forward evaluation for `submitMultiplayerAnswer` in the same situation. -/
theorem submitMultiplayerAnswer_already_answered (s : GameSession)
    (pid qid : String) (si t : Int) (hstatus : s.status = .active)
    (hq : ∃ question, s.questions.find? (fun q => q.questionId == qid) = some question)
    (hguard : ∃ currentQ, s.questions[s.currentQuestionIndex]? = some currentQ ∧
      currentQ.questionId = qid)
    (hp : (s.players.find? (fun p => p.playerId == pid)).isSome)
    (hdup : (lookupAnswer s.answeredQuestions qid pid).isSome) :
    submitMultiplayerAnswer s pid qid si t =
      .error "Already answered this question" := by
  obtain ⟨question, hqe⟩ := hq
  obtain ⟨player, hpe⟩ := Option.isSome_iff_exists.mp hp
  obtain ⟨currentQ, hcq, hcqid⟩ := hguard
  unfold submitMultiplayerAnswer
  rw [hqe]
  simp [hstatus, hcq, hcqid, hpe, hdup]

/-- C2: the `(questionId, playerId)` pair is written at most once.  After a
successful `submitAnswer` (or `submitMultiplayerAnswer`), the pair has a
recorded answer and a second submission for the same pair — via either entry
point — fails with the conflict error (so nothing is persisted by it); and no
lifecycle step ever changes an already-recorded answer. -/
theorem answer_recorded_at_most_once (s : GameSession) (pid qid : String)
    (si t si' t' : Int) (r : AnswerResult) (s₁ : GameSession)
    (rm : MultiplayerAnswerResult) (s₂ : GameSession)
    (u u' : GameSession) (q p : String) (a : PlayerAnswer) :
    (submitAnswer s pid qid si t = .ok (r, s₁) →
      (lookupAnswer s₁.answeredQuestions qid pid).isSome ∧
      submitAnswer s₁ pid qid si' t' = .error "Already answered this question") ∧
    (submitMultiplayerAnswer s pid qid si t = .ok (rm, s₂) →
      (lookupAnswer s₂.answeredQuestions qid pid).isSome ∧
      submitAnswer s₂ pid qid si' t' = .error "Already answered this question" ∧
      submitMultiplayerAnswer s₂ pid qid si' t' =
        .error "Already answered this question") ∧
    (SessionStep u u' → lookupAnswer u.answeredQuestions q p = some a →
      lookupAnswer u'.answeredQuestions q p = some a) := by
  refine ⟨?_, ?_, ?_⟩
  · intro h
    obtain ⟨hstatus, hguard, question, hqfind, htail⟩ := submitAnswer_ok_inversion h
    obtain ⟨player, hpfind, hnone, hs₁, hr⟩ := submitAnswerTail_ok_inversion htail
    constructor
    · rw [hs₁, lookupAnswer_recordAnswer_self]
      rfl
    · rw [hs₁]
      apply submitAnswer_already_answered
      · exact (recordAnswer_frame s pid qid _ _).1.trans hstatus
      · refine ⟨question, ?_⟩
        rw [(recordAnswer_frame s pid qid _ _).2.1]
        exact hqfind
      · intro hmp
        rw [(recordAnswer_frame s pid qid _ _).2.1,
          (recordAnswer_frame s pid qid _ _).2.2.1]
        exact hguard (by rw [← (recordAnswer_frame s pid qid _ _).2.2.2.1]; exact hmp)
      · rw [recordAnswer_find_player, hpfind]
        rfl
      · rw [lookupAnswer_recordAnswer_self]
        rfl
  · intro h
    obtain ⟨hstatus, hguard, question, player, hqfind, hpfind, hnone, hs₂, hres⟩ :=
      submitMultiplayerAnswer_ok_inversion h
    refine ⟨?_, ?_, ?_⟩
    · rw [hs₂, lookupAnswer_recordAnswer_self]
      rfl
    · rw [hs₂]
      apply submitAnswer_already_answered
      · exact (recordAnswer_frame s pid qid _ _).1.trans hstatus
      · refine ⟨question, ?_⟩
        rw [(recordAnswer_frame s pid qid _ _).2.1]
        exact hqfind
      · intro _
        rw [(recordAnswer_frame s pid qid _ _).2.1,
          (recordAnswer_frame s pid qid _ _).2.2.1]
        exact hguard
      · rw [recordAnswer_find_player, hpfind]
        rfl
      · rw [lookupAnswer_recordAnswer_self]
        rfl
    · rw [hs₂]
      apply submitMultiplayerAnswer_already_answered
      · exact (recordAnswer_frame s pid qid _ _).1.trans hstatus
      · refine ⟨question, ?_⟩
        rw [(recordAnswer_frame s pid qid _ _).2.1]
        exact hqfind
      · rw [(recordAnswer_frame s pid qid _ _).2.1,
          (recordAnswer_frame s pid qid _ _).2.2.1]
        exact hguard
      · rw [recordAnswer_find_player, hpfind]
        rfl
      · rw [lookupAnswer_recordAnswer_self]
        rfl
  · intro hstep hrec
    cases hstep with
    | join hj =>
      obtain ⟨-, -, hs'⟩ := joinMultiplayerSession_ok_inversion hj
      rw [hs']
      exact hrec
    | start hs =>
      obtain ⟨-, hs', -, -, -⟩ := startGame_ok_inversion hs
      rw [hs']
      exact hrec
    | submit hsub =>
      obtain ⟨-, -, question, -, htail⟩ := submitAnswer_ok_inversion hsub
      obtain ⟨player, -, hnone, hs', -⟩ := submitAnswerTail_ok_inversion htail
      rw [hs']
      exact lookupAnswer_recordAnswer_preserves _ _ _ _ _ _ _ _ hnone hrec
    | submitMP hsub =>
      obtain ⟨-, -, question, player, -, -, hnone, hs', -⟩ :=
        submitMultiplayerAnswer_ok_inversion hsub
      rw [hs']
      exact lookupAnswer_recordAnswer_preserves _ _ _ _ _ _ _ _ hnone hrec
    | advance hadv =>
      have h2 := (advanceQuestion_inversion u).2.2.2.1
      rw [hadv] at h2
      rw [h2]
      exact hrec
    | remove =>
      rw [(removePlayer_frame u _).2.2.2]
      exact hrec

/-- Witness for C2 on the concrete session `soloSession`: a first submission
succeeds through each entry point, a duplicate fails with the conflict error,
and an `advanceQuestion` step leaves the recorded answer intact. -/
theorem answer_recorded_at_most_once_witness :
    (submitAnswer soloSession "p1" "q1" 0 5 = .ok (soloAfter1.1, soloAfter1.2)) ∧
    (submitMultiplayerAnswer soloSession "p1" "q1" 0 5 =
      .ok (soloMPAfter.1, soloMPAfter.2)) ∧
    SessionStep soloAfter1.2 (advanceQuestion soloAfter1.2).2 ∧
    (lookupAnswer soloAfter1.2.answeredQuestions "q1" "p1" = some soloAnswer) ∧
    ((lookupAnswer soloAfter1.2.answeredQuestions "q1" "p1").isSome ∧
      submitAnswer soloAfter1.2 "p1" "q1" 1 3 =
        .error "Already answered this question") ∧
    ((lookupAnswer soloMPAfter.2.answeredQuestions "q1" "p1").isSome ∧
      submitAnswer soloMPAfter.2 "p1" "q1" 1 3 =
        .error "Already answered this question" ∧
      submitMultiplayerAnswer soloMPAfter.2 "p1" "q1" 1 3 =
        .error "Already answered this question") ∧
    lookupAnswer (advanceQuestion soloAfter1.2).2.answeredQuestions "q1" "p1" =
      some soloAnswer := by
  have hthm := answer_recorded_at_most_once soloSession "p1" "q1" 0 5 1 3
    soloAfter1.1 soloAfter1.2 soloMPAfter.1 soloMPAfter.2
    soloAfter1.2 ((advanceQuestion soloAfter1.2).2) "q1" "p1" soloAnswer
  have h1 : submitAnswer soloSession "p1" "q1" 0 5 = .ok (soloAfter1.1, soloAfter1.2) := by
    rfl
  have h2 : submitMultiplayerAnswer soloSession "p1" "q1" 0 5 =
      .ok (soloMPAfter.1, soloMPAfter.2) := by
    rfl
  have h3 : SessionStep soloAfter1.2 (advanceQuestion soloAfter1.2).2 :=
    SessionStep.advance rfl
  have h4 : lookupAnswer soloAfter1.2.answeredQuestions "q1" "p1" = some soloAnswer := by
    rfl
  exact ⟨h1, h2, h3, h4, hthm.1 h1, hthm.2.1 h2, hthm.2.2 h3 h4⟩

/-! ## C1 — `allAnswered`, `standings` and `questionResults` read the
post-recording state -/

theorem recLookup_recordAnswer_self (s : GameSession) (pid qid : String)
    (pa : PlayerAnswer) (pts : Int) :
    recLookup (recordAnswer s pid qid pa pts).answeredQuestions qid =
      some (recInsert ((recLookup s.answeredQuestions qid).getD []) pid pa) :=
  recLookup_recInsert_self _ _ _

theorem lookupAnswer_recordAnswer_eq (s : GameSession) (pid qid x : String)
    (pa : PlayerAnswer) (pts : Int) :
    lookupAnswer (recordAnswer s pid qid pa pts).answeredQuestions qid x =
      recLookup (recInsert ((recLookup s.answeredQuestions qid).getD []) pid pa) x := by
  unfold lookupAnswer
  rw [recLookup_recordAnswer_self]

/-- C1: on every successful `submitMultiplayerAnswer`, `allAnswered` is true
iff every player whose `connected` flag is true in the returned (post-
recording) session has a recorded answer for the submitted question — the
just-recorded answer included — and `standings` and `questionResults` are
computed from that same post-recording state. -/
theorem submitMultiplayerAnswer_allAnswered_iff_postState
    (s : GameSession) (pid qid : String) (si t : Int)
    (res : MultiplayerAnswerResult) (s' : GameSession)
    (h : submitMultiplayerAnswer s pid qid si t = .ok (res, s')) :
    (res.allAnswered = true ↔
      ∀ p ∈ s'.players, p.connected = true →
        (lookupAnswer s'.answeredQuestions qid p.playerId).isSome) ∧
    res.standings = sortByScoreDesc s'.players ∧
    res.questionResults = (recLookup s'.answeredQuestions qid).getD [] ∧
    (lookupAnswer s'.answeredQuestions qid pid).isSome := by
  obtain ⟨-, -, question, player, -, -, hnone, hs', hres⟩ :=
    submitMultiplayerAnswer_ok_inversion h
  subst hres
  refine ⟨?_, rfl, rfl, ?_⟩
  · show ((s'.players.filter (fun p => p.connected)).all
        (fun p => (recLookup ((recLookup s'.answeredQuestions qid).getD [])
          p.playerId).isSome)) = true ↔ _
    subst hs'
    rw [recLookup_recordAnswer_self]
    simp only [Option.getD_some, List.all_eq_true, List.mem_filter, and_imp,
      lookupAnswer_recordAnswer_eq]
  · subst hs'
    rw [lookupAnswer_recordAnswer_self]
    rfl

/-- Witness for C1 on the concrete session `mpSession` (three connected
players, none of whom has answered yet). -/
theorem submitMultiplayerAnswer_allAnswered_iff_postState_witness :
    (submitMultiplayerAnswer mpSession "h1" "q1" 0 5 = .ok (mpAfter1.1, mpAfter1.2)) ∧
    ((mpAfter1.1.allAnswered = true ↔
      ∀ p ∈ mpAfter1.2.players, p.connected = true →
        (lookupAnswer mpAfter1.2.answeredQuestions "q1" p.playerId).isSome) ∧
    mpAfter1.1.standings = sortByScoreDesc mpAfter1.2.players ∧
    mpAfter1.1.questionResults = (recLookup mpAfter1.2.answeredQuestions "q1").getD [] ∧
    (lookupAnswer mpAfter1.2.answeredQuestions "q1" "h1").isSome) := by
  have h1 : submitMultiplayerAnswer mpSession "h1" "q1" 0 5 =
      .ok (mpAfter1.1, mpAfter1.2) := by
    rfl
  exact ⟨h1, submitMultiplayerAnswer_allAnswered_iff_postState mpSession "h1" "q1"
    0 5 mpAfter1.1 mpAfter1.2 h1⟩

/-! ## C4 — status moves only forward; the index bound holds while the
session is not finished -/

theorem statusRank_le_two (st : SessionStatus) : statusRank st ≤ 2 := by
  cases st <;> simp [statusRank]

/-- C4 (amended): every lifecycle step moves `status` forward along
`waiting → active → finished` (never backward), and every reachable session
that is not yet `finished` satisfies `currentQuestionIndex ≤ len(questions)`
(`0 ≤ currentQuestionIndex` holds outright since the index is a natural
number).  The bound cannot be promised for `finished` sessions: a further
`advanceQuestion` on a finished session pushes the index past the length. -/
theorem session_status_forward_and_index_bounded :
    (∀ s s' : GameSession, SessionStep s s' →
      statusRank s.status ≤ statusRank s'.status) ∧
    (∀ s : GameSession, ReachableSession s → s.status ≠ .finished →
      s.currentQuestionIndex ≤ s.questions.length) := by
  constructor
  · intro s s' hstep
    cases hstep with
    | join hj =>
      obtain ⟨-, -, hs'⟩ := joinMultiplayerSession_ok_inversion hj
      rw [hs']
    | start hs =>
      obtain ⟨hw, hs', -, -, -⟩ := startGame_ok_inversion hs
      rw [hs', hw]
      simp [statusRank]
    | submit hsub =>
      obtain ⟨-, -, question, -, htail⟩ := submitAnswer_ok_inversion hsub
      obtain ⟨player, -, -, hs', -⟩ := submitAnswerTail_ok_inversion htail
      rw [hs']
      exact le_of_eq (congrArg statusRank (recordAnswer_frame _ _ _ _ _).1.symm)
    | submitMP hsub =>
      obtain ⟨-, -, question, player, -, -, -, hs', -⟩ :=
        submitMultiplayerAnswer_ok_inversion hsub
      rw [hs']
      exact le_of_eq (congrArg statusRank (recordAnswer_frame _ _ _ _ _).1.symm)
    | advance hadv =>
      have h2 := (advanceQuestion_inversion s).2.2.2.2.1
      rw [hadv] at h2
      rcases h2 with h2 | h2
      · rw [h2]
      · rw [h2]
        exact statusRank_le_two _
    | remove =>
      rw [(removePlayer_frame s _).1]
  · intro s hreach
    induction hreach with
    | createSingle sid pid name settings questions now =>
      intro _
      exact Nat.zero_le _
    | createMulti sid pid name settings questions code now =>
      intro _
      exact Nat.zero_le _
    | step hr hstep ih =>
      rename_i s₀ s₁
      cases hstep with
      | join hj =>
        obtain ⟨-, -, hs'⟩ := joinMultiplayerSession_ok_inversion hj
        rw [hs']
        intro hne
        exact ih hne
      | start hs =>
        obtain ⟨-, hs', -, -, -⟩ := startGame_ok_inversion hs
        rw [hs']
        intro _
        exact Nat.zero_le _
      | submit hsub =>
        obtain ⟨-, -, question, -, htail⟩ := submitAnswer_ok_inversion hsub
        obtain ⟨player, -, -, hs', -⟩ := submitAnswerTail_ok_inversion htail
        rw [hs']
        intro hne
        exact ih (by rwa [(recordAnswer_frame _ _ _ _ _).1] at hne)
      | submitMP hsub =>
        obtain ⟨-, -, question, player, -, -, -, hs', -⟩ :=
          submitMultiplayerAnswer_ok_inversion hsub
        rw [hs']
        intro hne
        exact ih (by rwa [(recordAnswer_frame _ _ _ _ _).1] at hne)
      | advance hadv =>
        have h2 := (advanceQuestion_inversion s₀).2.2.2.2.2
        rw [hadv] at h2
        intro hne
        exact (h2 hne).le
      | remove =>
        rw [(removePlayer_frame s₀ _).1, (removePlayer_frame s₀ _).2.1,
          (removePlayer_frame s₀ _).2.2.1]
        exact ih

/-- Witness for C4 on concrete inputs: an `advanceQuestion` step out of
`soloSession`, and `soloSession` itself as a reachable non-finished session. -/
theorem session_status_forward_and_index_bounded_witness :
    SessionStep soloSession (advanceQuestion soloSession).2 ∧
    statusRank soloSession.status ≤ statusRank (advanceQuestion soloSession).2.status ∧
    ReachableSession soloSession ∧ soloSession.status ≠ .finished ∧
    soloSession.currentQuestionIndex ≤ soloSession.questions.length := by
  have hstep : SessionStep soloSession (advanceQuestion soloSession).2 :=
    SessionStep.advance rfl
  have hreach : ReachableSession soloSession :=
    ReachableSession.createSingle "sid-solo" "p1" "ash"
      { questionCount := 1, timePerQuestion := 15, hardMode := false }
      [sampleQuestion] 0
  exact ⟨hstep, session_status_forward_and_index_bounded.1 _ _ hstep, hreach,
    by decide, session_status_forward_and_index_bounded.2 _ hreach (by decide)⟩

/-- Counterexample to C4 as stated: `advanceQuestion` has no status guard, so
advancing a finished one-question session once more yields a *reachable*
session whose `currentQuestionIndex` (2) exceeds `len(questions)` (1). -/
theorem advanceQuestion_can_exceed_question_count :
    ReachableSession overAdvanced ∧
    overAdvanced.questions.length < overAdvanced.currentQuestionIndex := by
  refine ⟨?_, by decide⟩
  have h0 : ReachableSession soloSession :=
    ReachableSession.createSingle "sid-solo" "p1" "ash"
      { questionCount := 1, timePerQuestion := 15, hardMode := false }
      [sampleQuestion] 0
  exact (h0.step (SessionStep.advance rfl)).step (SessionStep.advance rfl)

/-! ## C9 — `removePlayer` disconnects and transfers host status -/

theorem map_if_no_match {α : Type} (pred : α → Bool) (f : α → α) (l : List α)
    (h : ∀ x ∈ l, pred x = false) :
    l.map (fun x => if pred x then f x else x) = l := by
  induction l with
  | nil => rfl
  | cons a rest ih =>
    have ha : pred a = false := h a (List.mem_cons_self a rest)
    rw [List.map_cons, if_neg (by simp [ha]), ih (fun x hx => h x (List.mem_cons_of_mem a hx))]

theorem updateFirst_eq_map_of_nodup (pid : String) (f : PlayerInfo → PlayerInfo)
    (l : List PlayerInfo) (hnodup : (l.map (fun p => p.playerId)).Nodup) :
    updateFirst (fun p => p.playerId == pid) f l =
      l.map (fun p => if p.playerId == pid then f p else p) := by
  induction l with
  | nil => rfl
  | cons a rest ih =>
    rw [List.map_cons, List.nodup_cons] at hnodup
    by_cases h : a.playerId = pid
    · have hrest : ∀ x ∈ rest, (x.playerId == pid) = false := by
        intro x hx
        simp only [beq_eq_false_iff_ne]
        intro he
        exact hnodup.1 (by rw [h, ← he]; exact List.mem_map_of_mem _ hx)
      simp only [updateFirst, h, beq_self_eq_true, if_true, List.map_cons]
      rw [map_if_no_match _ _ _ hrest]
    · have hb : (a.playerId == pid) = false := by simp [h]
      simp only [updateFirst, hb, Bool.false_eq_true, if_false, List.map_cons]
      rw [ih hnodup.2]

theorem updateFirst_pred_eq_map_of_find? (pred : PlayerInfo → Bool)
    (f : PlayerInfo → PlayerInfo) (l : List PlayerInfo) (q : PlayerInfo)
    (hfind : l.find? pred = some q)
    (hnodup : (l.map (fun p => p.playerId)).Nodup) :
    updateFirst pred f l =
      l.map (fun p => if p.playerId == q.playerId then f p else p) := by
  induction l with
  | nil => simp at hfind
  | cons a rest ih =>
    rw [List.map_cons, List.nodup_cons] at hnodup
    by_cases h : pred a
    · rw [List.find?_cons_of_pos _ h, Option.some.injEq] at hfind
      subst hfind
      have hrest : ∀ x ∈ rest, (x.playerId == a.playerId) = false := by
        intro x hx
        simp only [beq_eq_false_iff_ne]
        intro he
        exact hnodup.1 (by rw [← he]; exact List.mem_map_of_mem _ hx)
      simp only [updateFirst, h, if_true, List.map_cons, beq_self_eq_true]
      rw [map_if_no_match _ _ _ hrest]
    · rw [List.find?_cons_of_neg _ h] at hfind
      have hq_mem : q ∈ rest := List.mem_of_find?_eq_some hfind
      have haq : (a.playerId == q.playerId) = false := by
        simp only [beq_eq_false_iff_ne]
        intro he
        exact hnodup.1 (he ▸ List.mem_map_of_mem _ hq_mem)
      simp only [updateFirst, h, Bool.false_eq_true, if_false, List.map_cons, haq]
      rw [ih hfind hnodup.2]

theorem find?_map_of_pred_eq {α : Type} (pred : α → Bool) (h : α → α) (l : List α)
    (hpred : ∀ x ∈ l, pred (h x) = pred x)
    (hid : ∀ x ∈ l, pred x = true → h x = x) :
    (l.map h).find? pred = l.find? pred := by
  induction l with
  | nil => rfl
  | cons a rest ih =>
    by_cases hp : pred a
    · rw [List.map_cons,
        List.find?_cons_of_pos _ (by rw [hpred a (List.mem_cons_self a rest)]; exact hp),
        List.find?_cons_of_pos _ hp, hid a (List.mem_cons_self a rest) hp]
    · rw [List.map_cons,
        List.find?_cons_of_neg _ (by rw [hpred a (List.mem_cons_self a rest)]; exact hp),
        List.find?_cons_of_neg _ hp,
        ih (fun x hx => hpred x (List.mem_cons_of_mem a hx))
          (fun x hx => hid x (List.mem_cons_of_mem a hx))]

/-- C9: `removePlayer` marks the given player's `connected` flag false.  If the
removed player held `isHost`, host status moves to the first connected other
player in original join order when one exists (the removed player's `isHost`
is cleared either way); if the removed player was not the host, no `isHost`
flag changes.  Every other field of every player is untouched. -/
theorem removePlayer_disconnects_and_transfers_host (s : GameSession)
    (pid : String) (player : PlayerInfo)
    (hfind : s.players.find? (fun p => p.playerId == pid) = some player)
    (hnodup : (s.players.map (fun p => p.playerId)).Nodup) :
    (player.isHost = false →
      (removePlayer s pid).players =
        s.players.map (fun p =>
          if p.playerId == pid then { p with connected := false } else p)) ∧
    (player.isHost = true →
      match s.players.find? (fun p => p.connected && p.playerId != pid) with
      | none =>
        (removePlayer s pid).players =
          s.players.map (fun p =>
            if p.playerId == pid then { p with connected := false, isHost := false }
            else p)
      | some q =>
        (removePlayer s pid).players =
          s.players.map (fun p =>
            if p.playerId == pid then { p with connected := false, isHost := false }
            else if p.playerId == q.playerId then { p with isHost := true }
            else p)) := by
  have hbridge : (updateFirst (fun p => p.playerId == pid)
        (fun p => { p with connected := false, isHost := false })
        s.players).find? (fun p => p.connected && p.playerId != pid) =
      s.players.find? (fun p => p.connected && p.playerId != pid) := by
    rw [updateFirst_eq_map_of_nodup pid _ _ hnodup]
    apply find?_map_of_pred_eq
    · intro x _
      by_cases hx : x.playerId = pid
      · simp [hx]
      · simp [hx]
    · intro x _ hpx
      have : x.playerId ≠ pid := by
        simp only [Bool.and_eq_true, bne_iff_ne] at hpx
        exact hpx.2
      simp [this]
  constructor
  · intro hhost
    unfold removePlayer
    rw [hfind]
    simp only [hhost, Bool.false_eq_true, if_false]
    exact updateFirst_eq_map_of_nodup pid _ _ hnodup
  · intro hhost
    rcases hnext : s.players.find? (fun p => p.connected && p.playerId != pid) with
      _ | q
    · simp only [hnext]
      unfold removePlayer
      rw [hfind]
      simp only [hhost, if_true]
      have hnone2 := List.find?_eq_none.mp (hbridge.trans hnext)
      rw [updateFirst_eq_self_of_no_match _ _ _
        (fun x hx => by simpa using hnone2 x hx)]
      exact updateFirst_eq_map_of_nodup pid _ _ hnodup
    · simp only [hnext]
      unfold removePlayer
      rw [hfind]
      simp only [hhost, if_true]
      have hq2 := List.find?_some hnext
      have hqpid : q.playerId ≠ pid := by
        simp only [Bool.and_eq_true, bne_iff_ne] at hq2
        exact hq2.2
      have hnodup2 : ((updateFirst (fun p => p.playerId == pid)
          (fun p => { p with connected := false, isHost := false })
          s.players).map (fun p => p.playerId)).Nodup := by
        rw [updateFirst_map_proj (fun p => p.playerId) (fun p => p.playerId == pid)
          (fun p => { p with connected := false, isHost := false })
          (fun x => rfl) s.players]
        exact hnodup
      rw [updateFirst_pred_eq_map_of_find? _ _ _ q (by rw [hbridge]; exact hnext)
        hnodup2]
      rw [updateFirst_eq_map_of_nodup pid _ _ hnodup, List.map_map]
      apply List.map_congr_left
      intro p _
      by_cases hp : p.playerId = pid
      · simp [hp, Ne.symm hqpid]
      · simp [hp]

/-- Witness for C9: removing the connected host of the three-player
`mpSession` promotes the next-joined connected player; removing a non-host
changes no host flag. -/
theorem removePlayer_disconnects_and_transfers_host_witness :
    (mpSession.players.find? (fun p => p.playerId == "h1") =
      some (createPlayer "h1" "ash" true)) ∧
    (mpSession.players.map (fun p => p.playerId)).Nodup ∧
    ((removePlayer mpSession "h1").players =
      [{ createPlayer "h1" "ash" true with connected := false, isHost := false },
        { createPlayer "g2" "misty" false with isHost := true },
        createPlayer "g3" "brock" false]) ∧
    (mpSession.players.find? (fun p => p.playerId == "g3") =
      some (createPlayer "g3" "brock" false)) ∧
    ((removePlayer mpSession "g3").players =
      [createPlayer "h1" "ash" true, createPlayer "g2" "misty" false,
        { createPlayer "g3" "brock" false with connected := false }]) := by
  have hhost := removePlayer_disconnects_and_transfers_host mpSession "h1"
    (createPlayer "h1" "ash" true) (by decide) (by decide)
  have hguest := removePlayer_disconnects_and_transfers_host mpSession "g3"
    (createPlayer "g3" "brock" false) (by decide) (by decide)
  refine ⟨by decide, by decide, ?_, by decide, ?_⟩
  · have h2 := hhost.2 rfl
    simp only [show mpSession.players.find?
        (fun p => p.connected && p.playerId != "h1") =
        some (createPlayer "g2" "misty" false) from by decide] at h2
    rw [h2]
    decide
  · have h1 := hguest.1 rfl
    rw [h1]
    decide

/-! ## C7 — shape of generated question sets

Counts and `correctIndex` behave as claimed on every successful run; the
no-duplicate-option-text part holds only when the species-deduped pool has
pairwise-distinct display names, and fails otherwise (two distinct species
names can clean to the same display name). -/

theorem count_set_add {α : Type} [DecidableEq α] (l : List α) (n : Nat) (c : α)
    (hn : n < l.length) (x : α) :
    (l.set n c).count x + (if l.get ⟨n, hn⟩ = x then 1 else 0) =
      l.count x + (if c = x then 1 else 0) := by
  have hdecomp : l.take n ++ l.get ⟨n, hn⟩ :: l.drop (n + 1) = l := by
    rw [List.get_eq_getElem, List.getElem_cons_drop]
    exact List.take_append_drop n l
  have hset : l.set n c = l.take n ++ c :: l.drop (n + 1) := by
    rw [List.set_eq_take_append_cons_drop, if_pos hn]
  rw [hset]
  conv_rhs => rw [← hdecomp]
  simp only [List.count_append, List.count_cons, beq_iff_eq]
  split_ifs <;> omega

theorem listSwap_perm {α : Type} [DecidableEq α] (l : List α) (i j : Nat) :
    (listSwap l i j).Perm l := by
  cases hi : l[i]? with
  | none =>
    have he : listSwap l i j = l := by
      unfold listSwap
      rw [hi]
    rw [he]
  | some a =>
    cases hj : l[j]? with
    | none =>
      have he : listSwap l i j = l := by
        unfold listSwap
        rw [hi, hj]
      rw [he]
    | some b =>
      have he : listSwap l i j = (l.set i b).set j a := by
        unfold listSwap
        rw [hi, hj]
      obtain ⟨hi', hia⟩ := List.getElem?_eq_some_iff.mp hi
      obtain ⟨hj', hjb⟩ := List.getElem?_eq_some_iff.mp hj
      have hj2 : j < (l.set i b).length := by simpa using hj'
      rw [he, List.perm_iff_count]
      intro x
      have h1 := count_set_add (l.set i b) j a hj2 x
      have h2 := count_set_add l i b hi' x
      have hgi : l.get ⟨i, hi'⟩ = a := by
        rw [List.get_eq_getElem]
        exact hia
      have hgj : (l.set i b).get ⟨j, hj2⟩ = b := by
        rw [List.get_eq_getElem, List.getElem_set]
        split
        · rfl
        · exact hjb
      rw [hgi] at h2
      rw [hgj] at h1
      omega

theorem fyLoop_perm {α : Type} [DecidableEq α] (rand : Nat → Nat) :
    ∀ (n : Nat) (l : List α), (fyLoop rand n l).Perm l
  | 0, l => List.Perm.refl l
  | k + 1, l =>
    (fyLoop_perm rand k (listSwap l (k + 1) (rand (k + 1) % (k + 2)))).trans
      (listSwap_perm l (k + 1) (rand (k + 1) % (k + 2)))

theorem shuffleArray_perm {α : Type} [DecidableEq α] (rand : Nat → Nat)
    (l : List α) : (shuffleArray rand l).Perm l :=
  fyLoop_perm rand (l.length - 1) l

theorem dedupeBySpecies_species_nodup (seen : List String) (l : List PokemonData) :
    ((dedupeBySpecies seen l).map (fun p => p.speciesName)).Nodup ∧
    ∀ n ∈ (dedupeBySpecies seen l).map (fun p => p.speciesName), n ∉ seen := by
  induction l generalizing seen with
  | nil => simp [dedupeBySpecies]
  | cons p ps ih =>
    by_cases h : p.speciesName ∈ seen
    · simpa [dedupeBySpecies, h] using ih seen
    · obtain ⟨hnd, hnotin⟩ := ih (p.speciesName :: seen)
      rw [show dedupeBySpecies seen (p :: ps) =
          p :: dedupeBySpecies (p.speciesName :: seen) ps
        from by simp [dedupeBySpecies, h], List.map_cons]
      constructor
      · rw [List.nodup_cons]
        exact ⟨fun hmem => (hnotin _ hmem) (List.mem_cons_self _ _), hnd⟩
      · intro n hn
        rcases List.mem_cons.mp hn with rfl | hn'
        · exact h
        · exact fun hns => (hnotin n hn') (List.mem_cons_of_mem _ hns)

theorem findIdx?_beq_spec (l : List String) (x : String) (hm : x ∈ l) :
    ∃ i, l.findIdx? (fun y => y == x) = some i ∧ i < l.length ∧ l[i]? = some x := by
  induction l with
  | nil => simp at hm
  | cons a rest ih =>
    by_cases ha : a = x
    · exact ⟨0, by simp [ha], by simp, by simp [ha]⟩
    · have hm' : x ∈ rest := by
        cases hm with
        | head => exact absurd rfl ha
        | tail _ h => exact h
      obtain ⟨i, hfi, hlt, hget⟩ := ih hm'
      refine ⟨i + 1, ?_, by simpa using hlt, by simpa using hget⟩
      rw [List.findIdx?_cons, if_neg (by simp [ha]), List.findIdx?_succ, hfi]
      rfl

theorem jsIndexOf_mem_spec (l : List String) (x : String) (hm : x ∈ l) :
    0 ≤ jsIndexOf l x ∧ jsIndexOf l x < l.length ∧
    l[(jsIndexOf l x).toNat]? = some x := by
  obtain ⟨i, hfi, hlt, hget⟩ := findIdx?_beq_spec l x hm
  have hji : jsIndexOf l x = (i : Int) := by
    unfold jsIndexOf
    rw [hfi]
  rw [hji]
  refine ⟨by positivity, by exact_mod_cast hlt, ?_⟩
  rw [Int.toNat_natCast]
  exact hget

theorem pickUpToTwo_char :
    ∀ (l : List PokemonData) (used : List String) (ds : List PokemonData),
    (pickUpToTwo used ds l).1 = ds ++ l.take (2 - ds.length) ∧
    (pickUpToTwo used ds l).2 =
      ((l.take (2 - ds.length)).map (fun p => p.speciesName)).reverse ++ used := by
  intro l
  induction l with
  | nil => intro used ds; simp [pickUpToTwo]
  | cons x rest ih =>
    intro used ds
    simp only [pickUpToTwo]
    split
    · rename_i h2
      have h0 : 2 - ds.length = 0 := by omega
      simp [h0]
    · rename_i h2
      have hlt : ds.length < 2 := by omega
      obtain ⟨ha, hb⟩ := ih (x.speciesName :: used) (ds ++ [x])
      have hsucc : 2 - ds.length = (2 - (ds ++ [x]).length) + 1 := by
        simp only [List.length_append, List.length_cons, List.length_nil]
        omega
      constructor
      · rw [ha, hsucc, List.take_succ_cons, List.append_assoc,
          List.singleton_append]
      · rw [hb, hsucc, List.take_succ_cons, List.map_cons, List.reverse_cons,
          List.append_assoc, List.singleton_append]

theorem addCandidates_spec (cs : String) (used : List String) :
    ∀ (cands acc : List PokemonData),
    (acc.map (fun p => p.speciesName)).Nodup →
    (∀ p ∈ acc, p.speciesName ≠ cs ∧ p.speciesName ∉ used) →
    ((addCandidates cs used acc cands).map (fun p => p.speciesName)).Nodup ∧
    ∀ p ∈ addCandidates cs used acc cands,
      (p ∈ acc ∨ p ∈ cands) ∧ p.speciesName ≠ cs ∧ p.speciesName ∉ used := by
  intro cands
  induction cands with
  | nil =>
    intro acc hnd hprop
    exact ⟨hnd, fun p hp => ⟨Or.inl hp, hprop p hp⟩⟩
  | cons c rest ih =>
    intro acc hnd hprop
    simp only [addCandidates]
    split
    · rename_i hcond
      simp only [Bool.and_eq_true, bne_iff_ne, Bool.not_eq_true',
        List.contains_eq_any_beq, List.any_eq_false, beq_iff_eq] at hcond
      obtain ⟨⟨hcs, hcu0⟩, hacc⟩ := hcond
      have hcu : c.speciesName ∉ used := fun hm => hcu0 _ hm rfl
      have hacc2 : ∀ q ∈ acc, q.speciesName ≠ c.speciesName := hacc
      have hnd' : ((acc ++ [c]).map (fun p => p.speciesName)).Nodup := by
        rw [List.map_append, List.nodup_append]
        refine ⟨hnd, by simp, ?_⟩
        intro a haa hac
        simp only [List.map_cons, List.map_nil, List.mem_singleton] at hac
        obtain ⟨q, hq, hqa⟩ := List.mem_map.mp haa
        exact hacc2 q hq (by rw [hqa, hac])
      have hprop' : ∀ p ∈ acc ++ [c],
          p.speciesName ≠ cs ∧ p.speciesName ∉ used := by
        intro p hp
        rcases List.mem_append.mp hp with h | h
        · exact hprop p h
        · simp only [List.mem_singleton] at h
          subst h
          exact ⟨hcs, hcu⟩
      obtain ⟨h1, h2⟩ := ih (acc ++ [c]) hnd' hprop'
      refine ⟨h1, fun p hp => ?_⟩
      obtain ⟨horig, hrest⟩ := h2 p hp
      refine ⟨?_, hrest⟩
      rcases horig with h | h
      · rcases List.mem_append.mp h with h | h
        · exact Or.inl h
        · simp only [List.mem_singleton] at h
          exact Or.inr (h ▸ List.mem_cons_self c rest)
      · exact Or.inr (List.mem_cons_of_mem c h)
    · rename_i hcond
      obtain ⟨h1, h2⟩ := ih acc hnd hprop
      refine ⟨h1, fun p hp => ?_⟩
      obtain ⟨horig, hrest⟩ := h2 p hp
      refine ⟨?_, hrest⟩
      rcases horig with h | h
      · exact Or.inl h
      · exact Or.inr (List.mem_cons_of_mem c h)

theorem collectTypeMatched_spec (dp : List PokemonData) (cs : String)
    (used : List String) :
    ∀ (ts : List String) (acc : List PokemonData),
    (acc.map (fun p => p.speciesName)).Nodup →
    (∀ p ∈ acc, p.speciesName ≠ cs ∧ p.speciesName ∉ used) →
    ((collectTypeMatched dp cs used acc ts).map (fun p => p.speciesName)).Nodup ∧
    ∀ p ∈ collectTypeMatched dp cs used acc ts,
      (p ∈ acc ∨ (p ∈ dp ∧ ∃ t ∈ ts, t ∈ p.types)) ∧
      p.speciesName ≠ cs ∧ p.speciesName ∉ used := by
  intro ts
  induction ts with
  | nil =>
    intro acc hnd hprop
    simp only [collectTypeMatched]
    exact ⟨hnd, fun p hp => ⟨Or.inl hp, hprop p hp⟩⟩
  | cons t ts ih =>
    intro acc hnd hprop
    simp only [collectTypeMatched]
    obtain ⟨hnd', hmem'⟩ := addCandidates_spec cs used (typeIndexGet dp t) acc
      hnd hprop
    have hprop' : ∀ p ∈ addCandidates cs used acc (typeIndexGet dp t),
        p.speciesName ≠ cs ∧ p.speciesName ∉ used := fun p hp => (hmem' p hp).2
    obtain ⟨h1, h2⟩ := ih (addCandidates cs used acc (typeIndexGet dp t))
      hnd' hprop'
    refine ⟨h1, fun p hp => ?_⟩
    obtain ⟨horig, hrest⟩ := h2 p hp
    refine ⟨?_, hrest⟩
    rcases horig with h | ⟨hdp, t', ht', htp⟩
    · rcases (hmem' p h).1 with h | h
      · exact Or.inl h
      · have hf := List.mem_filter.mp h
        refine Or.inr ⟨hf.1, t, List.mem_cons_self t ts, ?_⟩
        simpa using hf.2
    · exact Or.inr ⟨hdp, t', List.mem_cons_of_mem t ht', htp⟩

theorem fillFromPool_decomp (cs : String) :
    ∀ (pool : List PokemonData) (used : List String) (ds : List PokemonData),
    ∃ e, (fillFromPool cs used ds pool).1 = ds ++ e ∧
      (∀ p ∈ e, p ∈ pool ∧ p.speciesName ≠ cs ∧ p.speciesName ∉ used) ∧
      (∀ n ∈ used, n ∈ (fillFromPool cs used ds pool).2) ∧
      (fillFromPool cs used ds pool).1.length ≤ max ds.length 3 := by
  intro pool
  induction pool with
  | nil =>
    intro used ds
    refine ⟨[], ?_, ?_, ?_, ?_⟩
    · simp [fillFromPool]
    · intro p hp
      simp at hp
    · intro n hn
      simpa [fillFromPool] using hn
    · simp [fillFromPool]
  | cons p rest ih =>
    intro used ds
    simp only [fillFromPool]
    split
    · rename_i h3
      refine ⟨[], by simp, ?_, fun n hn => hn, ?_⟩
      · intro q hq
        simp at hq
      · simp only [List.append_nil]
        omega
    · rename_i h3
      split
      · rename_i hcond
        simp only [Bool.and_eq_true, bne_iff_ne, Bool.not_eq_true',
          List.contains_eq_any_beq, List.any_eq_false, beq_iff_eq] at hcond
        obtain ⟨hcs, hcu0⟩ := hcond
        have hcu : p.speciesName ∉ used := fun hm => hcu0 _ hm rfl
        obtain ⟨e, he1, he2, he3, he4⟩ := ih (p.speciesName :: used) (ds ++ [p])
        refine ⟨p :: e, ?_, ?_, ?_, ?_⟩
        · rw [he1, List.append_assoc, List.singleton_append]
        · intro q hq
          rcases List.mem_cons.mp hq with rfl | hq'
          · exact ⟨List.mem_cons_self _ _, hcs, hcu⟩
          · obtain ⟨hq1, hq2, hq3⟩ := he2 q hq'
            exact ⟨List.mem_cons_of_mem p hq1, hq2,
              fun hm => hq3 (List.mem_cons_of_mem _ hm)⟩
        · intro n hn
          exact he3 n (List.mem_cons_of_mem _ hn)
        · have hlen : (ds ++ [p]).length = ds.length + 1 := by simp
          rw [hlen] at he4
          omega
      · obtain ⟨e, he1, he2, he3, he4⟩ := ih used ds
        refine ⟨e, he1, ?_, he3, he4⟩
        intro q hq
        obtain ⟨hq1, hq2, hq3⟩ := he2 q hq
        exact ⟨List.mem_cons_of_mem p hq1, hq2, hq3⟩

theorem fillFromPool_nodup (cs : String) :
    ∀ (pool : List PokemonData) (used : List String) (ds : List PokemonData),
    (∀ p ∈ ds, p.speciesName ∈ used) →
    (ds.map (fun p => p.speciesName)).Nodup →
    cs ∉ ds.map (fun p => p.speciesName) →
    ((fillFromPool cs used ds pool).1.map (fun p => p.speciesName)).Nodup ∧
    cs ∉ (fillFromPool cs used ds pool).1.map (fun p => p.speciesName) ∧
    ∀ p ∈ (fillFromPool cs used ds pool).1,
      p.speciesName ∈ (fillFromPool cs used ds pool).2 := by
  intro pool
  induction pool with
  | nil =>
    intro used ds hsub hnd hcs
    exact ⟨hnd, hcs, fun p hp => hsub p hp⟩
  | cons p rest ih =>
    intro used ds hsub hnd hcs
    simp only [fillFromPool]
    split
    · exact ⟨hnd, hcs, fun q hq => hsub q hq⟩
    · split
      · rename_i h3 hcond
        simp only [Bool.and_eq_true, bne_iff_ne, Bool.not_eq_true',
          List.contains_eq_any_beq, List.any_eq_false, beq_iff_eq] at hcond
        obtain ⟨hpcs, hcu0⟩ := hcond
        have hcu : p.speciesName ∉ used := fun hm => hcu0 _ hm rfl
        refine ih (p.speciesName :: used) (ds ++ [p]) ?_ ?_ ?_
        · intro q hq
          rcases List.mem_append.mp hq with h | h
          · exact List.mem_cons_of_mem _ (hsub q h)
          · simp only [List.mem_singleton] at h
            subst h
            exact List.mem_cons_self _ _
        · rw [List.map_append, List.nodup_append]
          refine ⟨hnd, by simp, ?_⟩
          intro a haa hac
          simp only [List.map_cons, List.map_nil, List.mem_singleton] at hac
          obtain ⟨q, hq, hqa⟩ := List.mem_map.mp haa
          have hqu := hsub q hq
          rw [hqa, hac] at hqu
          exact hcu hqu
        · rw [List.map_append]
          intro hm
          rcases List.mem_append.mp hm with h | h
          · exact hcs h
          · simp only [List.map_cons, List.map_nil, List.mem_singleton] at h
            exact hpcs h.symm
      · exact ih used ds hsub hnd hcs

theorem relaxFill_spec (cs : String) :
    ∀ (pool ds : List PokemonData),
    (ds.map (fun p => p.speciesName)).Nodup →
    cs ∉ ds.map (fun p => p.speciesName) →
    (∃ e, relaxFill cs ds pool = ds ++ e ∧ ∀ p ∈ e, p ∈ pool) ∧
    ((relaxFill cs ds pool).map (fun p => p.speciesName)).Nodup ∧
    cs ∉ (relaxFill cs ds pool).map (fun p => p.speciesName) ∧
    (relaxFill cs ds pool).length ≤ max ds.length 3 ∧
    ((relaxFill cs ds pool).length < 3 →
      ∀ p ∈ pool, p.speciesName = cs ∨
        p.speciesName ∈ (relaxFill cs ds pool).map (fun q => q.speciesName)) := by
  intro pool
  induction pool with
  | nil =>
    intro ds hnd hcs
    refine ⟨⟨[], by simp [relaxFill], ?_⟩, hnd, hcs, ?_, ?_⟩
    · intro p hp
      simp at hp
    · simp only [relaxFill]
      omega
    · intro _ p hp
      simp at hp
  | cons p rest ih =>
    intro ds hnd hcs
    simp only [relaxFill]
    split
    · rename_i h3
      refine ⟨⟨[], by simp, ?_⟩, hnd, hcs, by omega, fun hlt => absurd hlt (by omega)⟩
      intro q hq
      simp at hq
    · rename_i h3
      split
      · rename_i hcond
        simp only [Bool.and_eq_true, bne_iff_ne, Bool.not_eq_true',
          List.any_eq_false, beq_iff_eq] at hcond
        obtain ⟨hpcs, hnew⟩ := hcond
        have hnd' : ((ds ++ [p]).map (fun q => q.speciesName)).Nodup := by
          rw [List.map_append, List.nodup_append]
          refine ⟨hnd, by simp, ?_⟩
          intro a haa hac
          simp only [List.map_cons, List.map_nil, List.mem_singleton] at hac
          obtain ⟨q, hq, hqa⟩ := List.mem_map.mp haa
          exact hnew q hq (by rw [hqa, hac])
        have hcs' : cs ∉ (ds ++ [p]).map (fun q => q.speciesName) := by
          rw [List.map_append]
          intro hm
          rcases List.mem_append.mp hm with h | h
          · exact hcs h
          · simp only [List.map_cons, List.map_nil, List.mem_singleton] at h
            exact hpcs h.symm
        obtain ⟨⟨e, he1, he2⟩, h1, h2, h3len, h4⟩ := ih (ds ++ [p]) hnd' hcs'
        refine ⟨⟨p :: e, ?_, ?_⟩, h1, h2, ?_, ?_⟩
        · rw [he1, List.append_assoc, List.singleton_append]
        · intro q hq
          rcases List.mem_cons.mp hq with rfl | hq'
          · exact List.mem_cons_self _ _
          · exact List.mem_cons_of_mem _ (he2 q hq')
        · have hlen : (ds ++ [p]).length = ds.length + 1 := by simp
          omega
        · intro hlt q hq
          rcases List.mem_cons.mp hq with rfl | hq'
          · right
            rw [he1, List.map_append, List.map_append]
            refine List.mem_append.mpr (Or.inl (List.mem_append.mpr (Or.inr ?_)))
            simp
          · exact h4 hlt q hq'
      · rename_i hcond
        have hor : p.speciesName = cs ∨
            p.speciesName ∈ ds.map (fun q => q.speciesName) := by
          by_contra hno
          push_neg at hno
          obtain ⟨hne, hnm⟩ := hno
          apply hcond
          simp only [Bool.and_eq_true, bne_iff_ne, Bool.not_eq_true',
            List.any_eq_false, beq_iff_eq]
          refine ⟨hne, fun d hd hdq => hnm ?_⟩
          exact List.mem_map.mpr ⟨d, hd, hdq⟩
        obtain ⟨⟨e, he1, he2⟩, h1, h2, h3len, h4⟩ := ih ds hnd hcs
        refine ⟨⟨e, he1, fun q hq => List.mem_cons_of_mem _ (he2 q hq)⟩,
          h1, h2, h3len, ?_⟩
        intro hlt q hq
        rcases List.mem_cons.mp hq with rfl | hq'
        · rcases hor with h | h
          · exact Or.inl h
          · right
            rw [he1, List.map_append]
            exact List.mem_append.mpr (Or.inl h)
        · exact h4 hlt q hq'


theorem questionDistractors_spec (uniq dp : List PokemonData) (cs : String)
    (used : List String) (stm : List PokemonData)
    (hu : (uniq.map (fun p => p.speciesName)).Nodup)
    (hu4 : 4 ≤ uniq.length)
    (hdp : ∀ p ∈ dp, p ∈ uniq)
    (hstm_nd : (stm.map (fun p => p.speciesName)).Nodup)
    (hstm : ∀ p ∈ stm, p ∈ dp ∧ p.speciesName ≠ cs) :
    (questionDistractors uniq dp cs used stm).1.length = 3 ∧
    cs ∉ (questionDistractors uniq dp cs used stm).1.map (fun p => p.speciesName) ∧
    ((questionDistractors uniq dp cs used stm).1.map
      (fun p => p.speciesName)).Nodup ∧
    ∀ p ∈ (questionDistractors uniq dp cs used stm).1, p ∈ uniq := by
  obtain ⟨hp1, hp2⟩ := pickUpToTwo_char stm used []
  have hds1_sub : ∀ p ∈ stm.take 2, p ∈ stm := fun p hp => List.mem_of_mem_take hp
  have hds1_nd : ((stm.take 2).map (fun p => p.speciesName)).Nodup := by
    rw [List.map_take]
    exact List.Nodup.sublist (List.take_sublist _ _) hstm_nd
  have hds1_cs : cs ∉ (stm.take 2).map (fun p => p.speciesName) := by
    intro hm
    obtain ⟨p, hp, hpe⟩ := List.mem_map.mp hm
    exact (hstm p (hds1_sub p hp)).2 hpe
  have hds1_used : ∀ p ∈ stm.take 2, p.speciesName ∈
      ((stm.take 2).map (fun q => q.speciesName)).reverse ++ used := by
    intro p hp
    exact List.mem_append.mpr (Or.inl (List.mem_reverse.mpr
      (List.mem_map.mpr ⟨p, hp, rfl⟩)))
  have hds1_len : (stm.take 2).length ≤ 2 := List.length_take_le 2 stm
  simp only [questionDistractors]
  rw [hp1, hp2]
  simp only [List.nil_append, List.length_nil, Nat.sub_zero]
  obtain ⟨e, he1, he2, _, he4⟩ := fillFromPool_decomp cs dp
    (((stm.take 2).map (fun q => q.speciesName)).reverse ++ used) (stm.take 2)
  obtain ⟨hf1, hf2, _⟩ := fillFromPool_nodup cs dp
    (((stm.take 2).map (fun q => q.speciesName)).reverse ++ used) (stm.take 2)
    hds1_used hds1_nd hds1_cs
  have hffl_len : (fillFromPool cs
      (((stm.take 2).map (fun q => q.speciesName)).reverse ++ used)
      (stm.take 2) dp).1.length ≤ 3 := by omega
  have hffl_uniq : ∀ p ∈ (fillFromPool cs
      (((stm.take 2).map (fun q => q.speciesName)).reverse ++ used)
      (stm.take 2) dp).1, p ∈ uniq := by
    intro p hp
    rw [he1] at hp
    rcases List.mem_append.mp hp with h | h
    · exact hdp p (hstm p (hds1_sub p h)).1
    · exact hdp p (he2 p h).1
  split
  · rename_i hlt
    obtain ⟨⟨e2, hr1, hr2⟩, hrnd, hrcs, hrlen, hrex⟩ := relaxFill_spec cs uniq
      (fillFromPool cs
        (((stm.take 2).map (fun q => q.speciesName)).reverse ++ used)
        (stm.take 2) dp).1 hf1 hf2
    refine ⟨?_, hrcs, hrnd, ?_⟩
    · by_contra hne
      have hlt3 : (relaxFill cs (fillFromPool cs
          (((stm.take 2).map (fun q => q.speciesName)).reverse ++ used)
          (stm.take 2) dp).1 uniq).length < 3 := by omega
      have hsubs : uniq.map (fun p => p.speciesName) ⊆
          cs :: (relaxFill cs (fillFromPool cs
            (((stm.take 2).map (fun q => q.speciesName)).reverse ++ used)
            (stm.take 2) dp).1 uniq).map (fun q => q.speciesName) := by
        intro a ha
        obtain ⟨p, hp, hpe⟩ := List.mem_map.mp ha
        rcases hrex hlt3 p hp with h | h
        · exact hpe ▸ h ▸ List.mem_cons_self _ _
        · exact List.mem_cons_of_mem _ (hpe ▸ h)
      have hlen := (List.subperm_of_subset hu hsubs).length_le
      simp only [List.length_map, List.length_cons] at hlen
      omega
    · intro p hp
      rw [hr1] at hp
      rcases List.mem_append.mp hp with h | h
      · exact hffl_uniq p h
      · exact hr2 p h
  · rename_i hge
    refine ⟨by omega, hf2, hf1, hffl_uniq⟩


theorem buildQuestions_props (uniq dp : List PokemonData)
    (tmRand optRand : Nat → Nat → Nat) (qid : Nat → String)
    (hu : (uniq.map (fun p => p.speciesName)).Nodup)
    (hu4 : 4 ≤ uniq.length)
    (hdp : ∀ p ∈ dp, p ∈ uniq) :
    ∀ (cpl : List PokemonData) (i : Nat) (used : List String),
    (∀ p ∈ cpl, p ∈ uniq) →
    (buildQuestions uniq dp tmRand optRand qid i used cpl).length = cpl.length ∧
    ∀ q ∈ buildQuestions uniq dp tmRand optRand qid i used cpl,
      q.options.length = 4 ∧ 0 ≤ q.correctIndex ∧ q.correctIndex < 4 ∧
      q.options[q.correctIndex.toNat]? = some q.correctName ∧
      ((uniq.map (fun p => p.name)).Nodup → q.options.Nodup) := by
  intro cpl
  induction cpl with
  | nil =>
    intro i used _
    simp [buildQuestions]
  | cons c rest ih =>
    intro i used hcm
    have hcu : c ∈ uniq := hcm c (List.mem_cons_self _ _)
    obtain ⟨htm_nd, htm_mem⟩ := collectTypeMatched_spec dp c.speciesName used
      c.types [] (by simp) (by simp)
    have hperm := shuffleArray_perm (tmRand i)
      (collectTypeMatched dp c.speciesName used [] c.types)
    have hstm_nd : ((shuffleArray (tmRand i)
        (collectTypeMatched dp c.speciesName used [] c.types)).map
        (fun p => p.speciesName)).Nodup :=
      ((hperm.map _).nodup_iff).mpr htm_nd
    have hstm : ∀ p ∈ shuffleArray (tmRand i)
        (collectTypeMatched dp c.speciesName used [] c.types),
        p ∈ dp ∧ p.speciesName ≠ c.speciesName := by
      intro p hp
      obtain ⟨horigin, hcs, _⟩ := htm_mem p (hperm.mem_iff.mp hp)
      rcases horigin with h | ⟨h, _⟩
      · simp at h
      · exact ⟨h, hcs⟩
    obtain ⟨hq1, hq2, hq3, hq4⟩ := questionDistractors_spec uniq dp
      c.speciesName used
      (shuffleArray (tmRand i)
        (collectTypeMatched dp c.speciesName used [] c.types))
      hu hu4 hdp hstm_nd hstm
    obtain ⟨ihlen, ihmem⟩ := ih (i + 1)
      (questionDistractors uniq dp c.speciesName used
        (shuffleArray (tmRand i)
          (collectTypeMatched dp c.speciesName used [] c.types))).2
      (fun p hp => hcm p (List.mem_cons_of_mem _ hp))
    constructor
    · simp only [buildQuestions, List.length_cons, ihlen]
    · intro q hq
      simp only [buildQuestions] at hq
      rcases List.mem_cons.mp hq with rfl | hq'
      · dsimp only
        have hoptperm := shuffleArray_perm (optRand i)
          ((c :: (questionDistractors uniq dp c.speciesName used
            (shuffleArray (tmRand i)
              (collectTypeMatched dp c.speciesName used [] c.types))).1).map
            (fun p => p.name))
        have hlen4 : (shuffleArray (optRand i)
            ((c :: (questionDistractors uniq dp c.speciesName used
              (shuffleArray (tmRand i)
                (collectTypeMatched dp c.speciesName used [] c.types))).1).map
              (fun p => p.name))).length = 4 := by
          rw [hoptperm.length_eq, List.length_map, List.length_cons, hq1]
        have hmem : c.name ∈ shuffleArray (optRand i)
            ((c :: (questionDistractors uniq dp c.speciesName used
              (shuffleArray (tmRand i)
                (collectTypeMatched dp c.speciesName used [] c.types))).1).map
              (fun p => p.name)) := by
          rw [hoptperm.mem_iff]
          exact List.mem_map.mpr ⟨c, List.mem_cons_self _ _, rfl⟩
        obtain ⟨hge, hlt, hget⟩ := jsIndexOf_mem_spec _ _ hmem
        refine ⟨hlen4, hge, ?_, hget, ?_⟩
        · rw [hlen4] at hlt
          exact_mod_cast hlt
        · intro hname
          rw [hoptperm.nodup_iff]
          have hLnd : (c :: (questionDistractors uniq dp c.speciesName used
              (shuffleArray (tmRand i)
                (collectTypeMatched dp c.speciesName used [] c.types))).1).Nodup := by
            apply List.Nodup.of_map (fun p => p.speciesName)
            rw [List.map_cons]
            exact List.nodup_cons.mpr ⟨hq2, hq3⟩
          have hLuniq : ∀ p ∈ c :: (questionDistractors uniq dp c.speciesName used
              (shuffleArray (tmRand i)
                (collectTypeMatched dp c.speciesName used [] c.types))).1,
              p ∈ uniq := by
            intro p hp
            rcases List.mem_cons.mp hp with rfl | hp'
            · exact hcu
            · exact hq4 p hp'
          refine List.Nodup.map_on ?_ hLnd
          intro x hx y hy hxy
          exact List.inj_on_of_nodup_map hname (hLuniq x hx) (hLuniq y hy) hxy
      · exact ihmem q hq'


/-- C7 (amended): whenever the deterministic tail of `generateQuestions`
succeeds, it returns exactly `settings.questionCount` questions, each with
exactly 4 options and `correctIndex ∈ [0, 3]` pointing at the position of
`correctName` within `options`; and whenever the species-deduped pool has
pairwise-distinct display names, no two options of a question share a display
name.  The original no-duplicate-options claim without that proviso is false
— see `generateQuestions_duplicate_display_names`. -/
theorem generateQuestions_shape (settings : GameSettings)
    (validPokemon : List PokemonData) (poolRand : Nat → Nat)
    (tmRand optRand : Nat → Nat → Nat) (qid : Nat → String) (qs : List Question)
    (h : generateQuestionsFromPool settings validPokemon poolRand tmRand
      optRand qid = .ok qs) :
    qs.length = settings.questionCount ∧
    (∀ q ∈ qs, q.options.length = 4 ∧ 0 ≤ q.correctIndex ∧ q.correctIndex < 4 ∧
      q.options[q.correctIndex.toNat]? = some q.correctName) ∧
    (((dedupeBySpecies [] validPokemon).map (fun p => p.name)).Nodup →
      ∀ q ∈ qs, q.options.Nodup) := by
  simp only [generateQuestionsFromPool] at h
  split at h
  · exact absurd h (by simp)
  · rename_i hlen
    simp only [Except.ok.injEq] at h
    subst h
    push_neg at hlen
    by_cases hn : settings.questionCount = 0
    · rw [hn]
      simp only [List.take_zero, List.map_nil, buildQuestions]
      refine ⟨rfl, ?_, ?_⟩
      · intro q hq
        simp at hq
      · intro _ q hq
        simp at hq
    · have hperm := shuffleArray_perm poolRand (dedupeBySpecies [] validPokemon)
      have hu := (dedupeBySpecies_species_nodup [] validPokemon).1
      have hu4 : 4 ≤ (dedupeBySpecies [] validPokemon).length := by
        have : 1 * 4 ≤ settings.questionCount * 4 :=
          Nat.mul_le_mul_right 4 (Nat.one_le_iff_ne_zero.mpr hn)
        omega
      have hdp : ∀ p ∈ (shuffleArray poolRand
          (dedupeBySpecies [] validPokemon)).drop settings.questionCount,
          p ∈ dedupeBySpecies [] validPokemon :=
        fun p hp => hperm.mem_iff.mp (List.mem_of_mem_drop hp)
      have hcp : ∀ p ∈ (shuffleArray poolRand
          (dedupeBySpecies [] validPokemon)).take settings.questionCount,
          p ∈ dedupeBySpecies [] validPokemon :=
        fun p hp => hperm.mem_iff.mp (List.mem_of_mem_take hp)
      obtain ⟨hL, hM⟩ := buildQuestions_props (dedupeBySpecies [] validPokemon)
        ((shuffleArray poolRand
          (dedupeBySpecies [] validPokemon)).drop settings.questionCount)
        tmRand optRand qid hu hu4 hdp
        ((shuffleArray poolRand
          (dedupeBySpecies [] validPokemon)).take settings.questionCount)
        0
        (((shuffleArray poolRand
          (dedupeBySpecies [] validPokemon)).take settings.questionCount).map
          (fun p => p.speciesName))
        hcp
      refine ⟨?_, ?_, ?_⟩
      · rw [hL, List.length_take, hperm.length_eq]
        have : settings.questionCount ≤ (dedupeBySpecies [] validPokemon).length := by
          omega
        omega
      · intro q hq
        obtain ⟨h1, h2, h3, h4, _⟩ := hM q hq
        exact ⟨h1, h2, h3, h4⟩
      · intro hname q hq
        exact (hM q hq).2.2.2.2 hname

/-- Witness for C7: a concrete successful one-question generation run. -/
theorem generateQuestions_shape_witness :
    (generateQuestionsFromPool oneQuestionSettings w7pool (fun i => i)
      (fun _ i => i) (fun _ i => i) (fun _ => "wq") = .ok w7qs) ∧
    (w7qs.length = oneQuestionSettings.questionCount ∧
      (∀ q ∈ w7qs, q.options.length = 4 ∧ 0 ≤ q.correctIndex ∧
        q.correctIndex < 4 ∧
        q.options[q.correctIndex.toNat]? = some q.correctName) ∧
      (((dedupeBySpecies [] w7pool).map (fun p => p.name)).Nodup →
        ∀ q ∈ w7qs, q.options.Nodup)) :=
  ⟨rfl, generateQuestions_shape oneQuestionSettings w7pool (fun i => i)
    (fun _ i => i) (fun _ i => i) (fun _ => "wq") w7qs rfl⟩

/-- C7 (counterexample to the unconditional claim): the generator dedupes by
`speciesName`, but display names are produced by `cleanPokemonName`, which
maps both the species name `"darmanitan"` and the form name
`"darmanitan-standard"` (kept as a species name by `fetchPokemon` when the
payload has no `species` field) to `"Darmanitan"`; on `c7pool` the generated
question carries the duplicated option text `"Darmanitan"` twice. -/
theorem generateQuestions_duplicate_display_names :
    cleanPokemonName "darmanitan" = "Darmanitan" ∧
    cleanPokemonName "darmanitan-standard" = "Darmanitan" ∧
    ("darmanitan" : String) ≠ "darmanitan-standard" ∧
    generateQuestionsFromPool oneQuestionSettings c7pool (fun i => i)
      (fun _ i => i) (fun _ i => i) (fun _ => "dq") = .ok [c7question] ∧
    c7question.options = ["Darmanitan", "Darmanitan", "Pidgey", "Rattata"] ∧
    ¬ c7question.options.Nodup :=
  ⟨by decide, by decide, by decide, rfl, rfl, by decide⟩

/-! ## C8 — type-matched distractors are selected first -/

/-- C8: the three distractor-selection stages the per-question loop runs in
order.  (1) Every collected type-matched candidate comes from the distractor
pool, shares at least one type with the correct answer, is a different
species from it, and is not yet used in this generation pass.  (2) The pick
stage takes exactly the first `min 2 |candidates|` of the shuffled candidates
— i.e. up to 2 — and marks their species used.  (3) The fill stage only
appends pool records whose species differs from the correct answer and was
not already used when the stage started. -/
theorem generateQuestions_type_matched_selection :
    (∀ (dp : List PokemonData) (cs : String) (used ts : List String)
        (p : PokemonData), p ∈ collectTypeMatched dp cs used [] ts →
      p ∈ dp ∧ (∃ t ∈ ts, t ∈ p.types) ∧ p.speciesName ≠ cs ∧
        p.speciesName ∉ used) ∧
    (∀ (used : List String) (l : List PokemonData),
      (pickUpToTwo used [] l).1 = l.take 2 ∧
      (pickUpToTwo used [] l).2 =
        ((l.take 2).map (fun p => p.speciesName)).reverse ++ used) ∧
    (∀ (cs : String) (used : List String) (ds dp : List PokemonData),
      ∃ e, (fillFromPool cs used ds dp).1 = ds ++ e ∧
        ∀ p ∈ e, p ∈ dp ∧ p.speciesName ≠ cs ∧ p.speciesName ∉ used) := by
  refine ⟨?_, ?_, ?_⟩
  · intro dp cs used ts p hp
    obtain ⟨horigin, hcs, hused⟩ := (collectTypeMatched_spec dp cs used ts []
      (by simp) (by simp)).2 p hp
    rcases horigin with h | ⟨h1, h2⟩
    · simp at h
    · exact ⟨h1, h2, hcs, hused⟩
  · intro used l
    have hc := pickUpToTwo_char l used []
    simpa using hc
  · intro cs used ds dp
    obtain ⟨e, he1, he2, _, _⟩ := fillFromPool_decomp cs dp used ds
    exact ⟨e, he1, he2⟩

/-- Witness for C8: on `c8pool` (correct answer `P1`, water), the candidate
`P5` is collected with the stated properties, the pick stage takes the two
water-typed candidates `P5`, `P6`, the fill stage appends only fresh species,
and the end-to-end run puts both water-typed distractors in the options. -/
theorem generateQuestions_type_matched_selection_witness :
    (c8P5 ∈ collectTypeMatched c8dp "p1" ["p1"] [] ["water"] ∧
      (c8P5 ∈ c8dp ∧ (∃ t ∈ ["water"], t ∈ c8P5.types) ∧
        c8P5.speciesName ≠ "p1" ∧ c8P5.speciesName ∉ ["p1"])) ∧
    ((pickUpToTwo ["p1"] []
        (collectTypeMatched c8dp "p1" ["p1"] [] ["water"])).1 =
      (collectTypeMatched c8dp "p1" ["p1"] [] ["water"]).take 2 ∧
      (pickUpToTwo ["p1"] []
        (collectTypeMatched c8dp "p1" ["p1"] [] ["water"])).2 =
      (((collectTypeMatched c8dp "p1" ["p1"] [] ["water"]).take 2).map
        (fun p => p.speciesName)).reverse ++ ["p1"]) ∧
    (∃ e, (fillFromPool "p1" ["p6", "p5", "p1"] [c8P5] c8dp).1 =
        [c8P5] ++ e ∧
      ∀ p ∈ e, p ∈ c8dp ∧ p.speciesName ≠ "p1" ∧
        p.speciesName ∉ ["p6", "p5", "p1"]) ∧
    generateQuestionsFromPool oneQuestionSettings c8pool (fun i => i)
      (fun _ i => i) (fun _ i => i) (fun _ => "cq") = .ok [c8question] ∧
    c8question.options = ["P1", "P5", "P6", "P2"] ∧
    c8question.correctName = "P1" :=
  ⟨⟨by decide, generateQuestions_type_matched_selection.1 c8dp "p1" ["p1"]
      ["water"] c8P5 (by decide)⟩,
    generateQuestions_type_matched_selection.2.1 ["p1"]
      (collectTypeMatched c8dp "p1" ["p1"] [] ["water"]),
    generateQuestions_type_matched_selection.2.2 "p1" ["p6", "p5", "p1"]
      [c8P5] c8dp,
    rfl, rfl, rfl⟩

end PokemonQuiz
